import Mathlib

/-!
# Video feedback simulator (`fb.cpp`): embedding and verified properties

The development follows the single source file `fb.cpp`.

* C strings are lists of characters (the terminating NUL is implicit: a
  pointer into a string is the list of characters from that position on).
* `int` variables are integers.  A `float` or `double` value is a finite
  number, an infinity or NaN (`Flt`), with the comparisons and the special
  cases of the arithmetic of IEEE 754; arithmetic on finite values is exact
  (rounding, overflow and the sign of zero are not represented).
* The C library calls (`atof`, `atoi`, `sscanf`) and the ArrayFire primitives
  (`randu`, `convolve2`, `rotate`, `resize`, ...) are not part of the source
  file: they are parameters (`CLib`, `Engine`) of the embedded functions.
* ArrayFire arrays are a shape together with an element function.
-/

namespace VideoFeedback

/-! ## Floating point values -/

/-- A `float` or `double` value: a finite number, plus or minus infinity, or
NaN. -/
inductive Flt
  | fin (q : ℚ)
  | pinf
  | ninf
  | nan
  deriving DecidableEq

namespace Flt

instance : Zero Flt := ⟨fin 0⟩

instance : One Flt := ⟨fin 1⟩

instance : OfNat Flt 2 := ⟨fin 2⟩

/-- The literal `0.5`. -/
def half : Flt := fin (1 / 2)

/-- Whether a value is a finite number. -/
def isFinite : Flt → Prop
  | fin _ => True
  | _ => False

/-- The negation `-x`. -/
def neg : Flt → Flt
  | fin a => fin (-a)
  | pinf => ninf
  | ninf => pinf
  | nan => nan

/-- The sum `x + y`: NaN for a NaN operand and for infinities of opposite
sign. -/
def add : Flt → Flt → Flt
  | fin a, fin b => fin (a + b)
  | fin _, pinf => pinf
  | fin _, ninf => ninf
  | pinf, fin _ => pinf
  | pinf, pinf => pinf
  | pinf, ninf => nan
  | ninf, fin _ => ninf
  | ninf, pinf => nan
  | ninf, ninf => ninf
  | nan, _ => nan
  | fin _, nan => nan
  | pinf, nan => nan
  | ninf, nan => nan

/-- The difference `x - y`. -/
def sub (x y : Flt) : Flt := add x (neg y)

/-- The infinity with the sign of a non-zero number, NaN for zero: the product
of a finite number and plus infinity. -/
def scaleInf (a : ℚ) : Flt :=
  if a = 0 then nan else if 0 < a then pinf else ninf

/-- The product `x * y`: NaN for a NaN operand and for zero times infinity. -/
def mul : Flt → Flt → Flt
  | fin a, fin b => fin (a * b)
  | fin a, pinf => scaleInf a
  | fin a, ninf => scaleInf (-a)
  | pinf, fin b => scaleInf b
  | ninf, fin b => scaleInf (-b)
  | pinf, pinf => pinf
  | pinf, ninf => ninf
  | ninf, pinf => ninf
  | ninf, ninf => pinf
  | nan, _ => nan
  | fin _, nan => nan
  | pinf, nan => nan
  | ninf, nan => nan

/-- The quotient `x / y`: NaN for a NaN operand, for zero by zero and for
infinity by infinity. -/
def div : Flt → Flt → Flt
  | fin a, fin b => if b = 0 then scaleInf a else fin (a / b)
  | fin _, pinf => fin 0
  | fin _, ninf => fin 0
  | pinf, fin b => if 0 ≤ b then pinf else ninf
  | ninf, fin b => if 0 ≤ b then ninf else pinf
  | pinf, pinf => nan
  | pinf, ninf => nan
  | ninf, pinf => nan
  | ninf, ninf => nan
  | nan, _ => nan
  | fin _, nan => nan
  | pinf, nan => nan
  | ninf, nan => nan

/-- The comparison `x < y`: false whenever an operand is NaN. -/
def lt : Flt → Flt → Prop
  | fin a, fin b => a < b
  | fin _, pinf => True
  | ninf, fin _ => True
  | ninf, pinf => True
  | _, _ => False

/-- The comparison `x <= y`: false whenever an operand is NaN. -/
def le : Flt → Flt → Prop
  | fin a, fin b => a ≤ b
  | fin _, pinf => True
  | ninf, fin _ => True
  | ninf, pinf => True
  | pinf, pinf => True
  | ninf, ninf => True
  | _, _ => False

instance : Neg Flt := ⟨neg⟩

instance : Add Flt := ⟨add⟩

instance : Sub Flt := ⟨sub⟩

instance : Mul Flt := ⟨mul⟩

instance : Div Flt := ⟨div⟩

instance : LT Flt := ⟨lt⟩

instance : LE Flt := ⟨le⟩

instance decidableLt (x y : Flt) : Decidable (x < y) := by
  show Decidable (lt x y)
  cases x <;> cases y <;> unfold lt <;> infer_instance

instance decidableLe (x y : Flt) : Decidable (x ≤ y) := by
  show Decidable (le x y)
  cases x <;> cases y <;> unfold le <;> infer_instance

instance decidableIsFinite (x : Flt) : Decidable x.isFinite := by
  cases x <;> unfold isFinite <;> infer_instance

end Flt

/-! ## C strings and the C library -/

/-- A C string: the characters before the terminating NUL. -/
abbrev CStr := List Char

/-- The call `strstr(hay, needle)`: the suffix of `hay` that starts at the first
occurrence of `needle`, or `none` (a null pointer) when there is none. -/
def strstr : CStr → CStr → Option CStr
  | [], needle => if needle.isEmpty then some [] else none
  | c :: cs, needle =>
    if needle.isPrefixOf (c :: cs) then some (c :: cs) else strstr cs needle

/-- Pointer arithmetic `c+k` on a pointer into a string.  The result is a string
only while it stays at or before the terminating NUL; one step further there
is nothing the program may read, which is `none`. -/
def ptrAdd (c : CStr) (k : Nat) : Option CStr :=
  if k ≤ c.length then some (c.drop k) else none

/-- The C library functions the argument scanner calls.  `atof` yields the
`double` read from the front of a string (NaN and the infinities included),
`toFloat` is the conversion of a `double` to `float` on assignment, `atoi`
the `int` read from the front of a string, `sscanf4` and `sscanf2` are
`sscanf` with the formats `"%f,%f,%f,%f"` and `"%f,%f"`: the values when all
conversions succeed, `none` when the returned count is smaller. -/
structure CLib where
  atof : CStr → Flt
  toFloat : Flt → Flt
  atoi : CStr → Int
  sscanf4 : CStr → Option (Flt × Flt × Flt × Flt)
  sscanf2 : CStr → Option (Flt × Flt)

/-- The conversion `(int)x` of a `double`: truncation toward zero.  For an
infinity or NaN the conversion is undefined in C; the value here is the one
the conversion instructions of x86 give. -/
def toInt : Flt → Int
  | .fin q => if 0 ≤ q then ⌊q⌋ else ⌈q⌉
  | _ => -2147483648

/-! ## Parameters, pipeline and globals -/

/-- The constant `MAXPIPE`. -/
def MAXPIPE : Nat := 100

/-- The constant `PI`. -/
def PI : Flt := .fin (314159 / 100000)

/-- The record `Param` of feedback parameters. -/
structure Param where
  blur : Int
  sharpen : Flt
  roll : Flt
  zoom : Flt
  blend : Flt
  crawlds : Flt
  crawldv : Flt
  crawldsv : Flt
  crawld : Flt
  noise : Flt
  mutate : Flt
  depth : Int
  seed : Int
  deriving DecidableEq

/-- The image operations a pipeline slot can point to. -/
inductive Stage
  | blur | sharpen | roll | blend | zoom | crawl | noise | histeq | invert
  deriving DecidableEq, Repr

/-- The global variables the argument scanner reads and writes.  The array
`pipeline` with its fill count `npipe` is the list of its first `npipe`
entries. -/
structure Globals where
  rows : Int
  cols : Int
  param : Param
  dumpdir : Option CStr
  nframes : Int
  pipeline : List Stage
  deriving DecidableEq

/-- The count `npipe` of functions in the pipeline. -/
def Globals.npipe (g : Globals) : Nat := g.pipeline.length

/-- The statement `pipeline[npipe++] = f`. -/
def Globals.push (g : Globals) (f : Stage) : Globals :=
  { g with pipeline := g.pipeline ++ [f] }

/-- The ways the argument scanner ends the process (`exit(-1)` after a message),
and `undefinedRead` for a read behind the end of an argument string. -/
inductive Fatal
  | crawlArgs
  | noiseArgs
  | unknownParameter (arg : CStr)
  | tooManyOperations
  | blurNotPositiveOdd
  | blendRange
  | zoomRange
  | noiseRange
  | depthInvalid
  | undefinedRead
  | noEntropy
  deriving DecidableEq

/-- The value string `c+k` of a directive, as a computation that fails when the
pointer leaves the argument. -/
def valueAt (c : CStr) (k : Nat) : Except Fatal CStr :=
  match ptrAdd c k with
  | some v => .ok v
  | none => .error .undefinedRead

/-! ## The argument scanner -/

/-- One pass through the body of the scanning loop up to the capacity test: the
chain of `strstr` tests on one argument, in the order of the source, and
the action of the first directive found. -/
def scanArg (lib : CLib) (g : Globals) (arg : CStr) : Except Fatal Globals :=
  if let some c := strstr arg "rows".toList then do
    let v ← valueAt c 5
    pure { g with rows := toInt (lib.atof v) }
  else if let some c := strstr arg "cols".toList then do
    let v ← valueAt c 5
    pure { g with cols := toInt (lib.atof v) }
  else if let some c := strstr arg "blur".toList then do
    let v ← valueAt c 5
    let g1 := { g with param := { g.param with blur := lib.atoi v } }
    pure (if g1.param.blur ≠ 1 then g1.push .blur else g1)
  else if let some c := strstr arg "sharpen".toList then do
    let v ← valueAt c 8
    pure ({ g with param := { g.param with sharpen := lib.toFloat (lib.atof v) } }.push .sharpen)
  else if let some c := strstr arg "roll".toList then do
    let v ← valueAt c 5
    pure ({ g with param := { g.param with roll := lib.toFloat (lib.atof v) } }.push .roll)
  else if let some c := strstr arg "blend".toList then do
    let v ← valueAt c 6
    pure ({ g with param := { g.param with blend := lib.toFloat (lib.atof v) } }.push .blend)
  else if let some c := strstr arg "zoom".toList then do
    let v ← valueAt c 5
    pure ({ g with param := { g.param with zoom := lib.toFloat (lib.atof v) } }.push .zoom)
  else if let some c := strstr arg "crawl".toList then do
    let v ← valueAt c 6
    match lib.sscanf4 v with
    | some (ds, dv, dsv, d) =>
      pure ({ g with param :=
        { g.param with crawlds := ds, crawldv := dv, crawldsv := dsv, crawld := d } }.push .crawl)
    | none => throw .crawlArgs
  else if let some c := strstr arg "noise".toList then do
    let v ← valueAt c 6
    match lib.sscanf2 v with
    | some (n, m) =>
      pure ({ g with param := { g.param with noise := n, mutate := m } }.push .noise)
    | none => throw .noiseArgs
  else if let some _ := strstr arg "histeq".toList then
    pure (g.push .histeq)
  else if let some _ := strstr arg "invert".toList then
    pure (g.push .invert)
  else if let some c := strstr arg "depth".toList then do
    let v ← valueAt c 6
    pure { g with param := { g.param with depth := lib.atoi v } }
  else if let some c := strstr arg "seed".toList then do
    let v ← valueAt c 5
    pure { g with param := { g.param with seed := lib.atoi v } }
  else if let some c := strstr arg "dump".toList then do
    let v ← valueAt c 5
    pure { g with dumpdir := some v }
  else if let some c := strstr arg "nframes".toList then do
    let v ← valueAt c 8
    pure { g with nframes := lib.atoi v }
  else
    throw (.unknownParameter arg)

/-- The capacity test that ends the body of the scanning loop. -/
def checkCapacity (g : Globals) : Except Fatal Globals :=
  if g.npipe ≥ MAXPIPE then throw .tooManyOperations else pure g

/-- The scanning loop over the arguments `argv[1]`, ..., `argv[argc-1]`. -/
def scanLoop (lib : CLib) : List CStr → Globals → Except Fatal Globals
  | [], g => pure g
  | arg :: rest, g => do
    let g1 ← scanArg lib g arg
    let g2 ← checkCapacity g1
    scanLoop lib rest g2

/-- The sanity check of the parameters that ends `scanargs`.  The remainder
`%` of C truncates toward zero. -/
def sanityCheck (g : Globals) : Except Fatal Globals :=
  if g.param.blur < 1 ∨ g.param.blur.tmod 2 ≠ 1 then throw .blurNotPositiveOdd
  else if g.param.blend < 0 ∨ g.param.blend > 1 then throw .blendRange
  else if g.param.zoom < 1 ∨ g.param.zoom > 2 then throw .zoomRange
  else if g.param.noise < 0 ∨ g.param.noise > 1 ∨ g.param.mutate < 0 ∨ g.param.mutate > 1 then
    throw .noiseRange
  else if g.param.depth ≠ 1 ∧ g.param.depth ≠ 3 then throw .depthInvalid
  else pure g

/-- The function `scanargs`: `argv` includes the program name `argv[0]`, which
the loop skips. -/
def scanargs (lib : CLib) (argv : List CStr) (g : Globals) : Except Fatal Globals := do
  let g1 ← scanLoop lib (argv.drop 1) g
  sanityCheck g1

/-- The values of the globals when `main` starts: the initialisers of `rows`,
`cols`, `dumpdir`, `nframes` and `npipe`, and the zero-initialised `param`. -/
def startGlobals : Globals :=
  { rows := 1080, cols := 1920,
    param := { blur := 0, sharpen := 0, roll := 0, zoom := 0, blend := 0, crawlds := 0,
               crawldv := 0, crawldsv := 0, crawld := 0, noise := 0, mutate := 0,
               depth := 0, seed := 0 },
    dumpdir := none, nframes := 30, pipeline := [] }

/-- The default parameter values that `main` assigns before it scans the
arguments. -/
def defaultParam : Param :=
  { blur := 1, sharpen := 0, roll := 0, zoom := 1, blend := Flt.half, crawlds := 0,
    crawldv := 0, crawldsv := 0, crawld := 0, noise := 0, mutate := 0, depth := 3, seed := 0 }

/-- The globals right before `main` calls `scanargs`. -/
def defaultGlobals : Globals := { startGlobals with param := defaultParam }

/-- The function `atoi` on plain decimal input, for running the scanner on
concrete command lines: an optional sign and the leading digits. -/
def atoiDec (s : CStr) : Int :=
  let body := match s with
    | '-' :: r => r
    | '+' :: r => r
    | r => r
  let n : Nat := (body.takeWhile Char.isDigit).foldl (fun acc d => 10 * acc + (d.toNat - 48)) 0
  match s with
  | '-' :: _ => - (n : Int)
  | _ => (n : Int)

/-- The function `atof` on plain decimal input: `nan`, `inf` and `-inf`, or
`digits[.digits]` with an optional sign, read exactly. -/
def atofDec (s : CStr) : Flt :=
  if "nan".toList.isPrefixOf s then Flt.nan
  else if "inf".toList.isPrefixOf s then Flt.pinf
  else if "-inf".toList.isPrefixOf s then Flt.ninf
  else
    let body := match s with
      | '-' :: r => r
      | '+' :: r => r
      | r => r
    let ip := body.takeWhile Char.isDigit
    let rest := body.dropWhile Char.isDigit
    let fp := match rest with
      | '.' :: r => r.takeWhile Char.isDigit
      | _ => []
    let num : Nat := (ip ++ fp).foldl (fun acc d => 10 * acc + (d.toNat - 48)) 0
    let v : ℚ := (num : ℚ) / (10 : ℚ) ^ fp.length
    match s with
    | '-' :: _ => Flt.fin (- v)
    | _ => Flt.fin v

/-- Splits a string at the first comma. -/
def splitComma (s : CStr) : CStr × Option CStr :=
  match s.dropWhile (· ≠ ',') with
  | [] => (s, none)
  | _ :: r => (s.takeWhile (· ≠ ','), some r)

/-- Whether a string starts with a decimal number. -/
def startsNumber (s : CStr) : Bool :=
  match s with
  | '-' :: d :: _ => d.isDigit
  | '+' :: d :: _ => d.isDigit
  | d :: _ => d.isDigit
  | [] => false

/-- The decimal C library: exact decimal reading, no rounding on conversion. -/
def decLib : CLib where
  atof := atofDec
  toFloat := id
  atoi := atoiDec
  sscanf4 := fun s =>
    match splitComma s with
    | (a, some r1) =>
      match splitComma r1 with
      | (b, some r2) =>
        match splitComma r2 with
        | (c, some d) =>
          if startsNumber a && startsNumber b && startsNumber c && startsNumber d then
            some (atofDec a, atofDec b, atofDec c, atofDec d)
          else none
        | _ => none
      | _ => none
    | _ => none
  sscanf2 := fun s =>
    match splitComma s with
    | (a, some b) =>
      if startsNumber a && startsNumber b then some (atofDec a, atofDec b) else none
    | _ => none

/-! ## Arrays -/

/-- An ArrayFire array of up to three dimensions: its shape and its elements.
Only the elements at indices inside the shape are elements of the array. -/
@[ext]
structure Image where
  rows : Nat
  cols : Nat
  depth : Nat
  elt : Nat → Nat → Nat → Flt

namespace Image

/-- The array `constant(v, rows, cols, depth)`. -/
def constant (v : Flt) (rows cols depth : Nat) : Image :=
  { rows := rows, cols := cols, depth := depth, elt := fun _ _ _ => v }

/-- Application of a function to every element. -/
def map (f : Flt → Flt) (a : Image) : Image :=
  { a with elt := fun i j k => f (a.elt i j k) }

/-- Elementwise combination of two arrays of one shape (the shape of the left
operand is the shape of the result). -/
def zipWith (f : Flt → Flt → Flt) (a b : Image) : Image :=
  { a with elt := fun i j k => f (a.elt i j k) (b.elt i j k) }

/-- The array `a + b`. -/
def add (a b : Image) : Image := zipWith (· + ·) a b

/-- The array `a - b`. -/
def sub (a b : Image) : Image := zipWith (· - ·) a b

/-- The array `a * b` (elementwise). -/
def mul (a b : Image) : Image := zipWith (· * ·) a b

/-- The array `c * a` for a scalar `c`. -/
def scale (c : Flt) (a : Image) : Image := map (fun x => c * x) a

/-- The array `c - a` for a scalar `c`. -/
def rsub (c : Flt) (a : Image) : Image := map (fun x => c - x) a

/-- The array `a - c` for a scalar `c`. -/
def subc (a : Image) (c : Flt) : Image := map (fun x => x - c) a

/-- The array `a + c` for a scalar `c`. -/
def addc (a : Image) (c : Flt) : Image := map (fun x => x + c) a

/-- The array `a / c` for a scalar `c`. -/
def divc (a : Image) (c : Flt) : Image := map (fun x => x / c) a

/-- The boolean array `a < c`: `1` where the comparison holds, `0` elsewhere. -/
def ltc (a : Image) (c : Flt) : Image := map (fun x => if x < c then 1 else 0) a

/-- The boolean array `a > c`: `1` where the comparison holds, `0` elsewhere. -/
def gtc (a : Image) (c : Flt) : Image := map (fun x => if x > c then 1 else 0) a

/-- The call `replace(a, cond, b)`, as the new value of `a`: elements of `a` are
kept where `cond` is true and taken from `b` where it is false. -/
def replace (a cond b : Image) : Image :=
  { a with elt := fun i j k => if cond.elt i j k ≠ 0 then a.elt i j k else b.elt i j k }

/-- The slice `a(span, span, k)`. -/
def channel (a : Image) (k : Nat) : Image :=
  { rows := a.rows, cols := a.cols, depth := 1, elt := fun i j l => a.elt i j (k + l) }

/-- The assignment `a(span, span, k) = b`, as the new value of `a`. -/
def setChannel (a : Image) (k : Nat) (b : Image) : Image :=
  { a with elt := fun i j l => if l = k then b.elt i j 0 else a.elt i j l }

/-- The array `join(2, a, b, c)`: concatenation along the third dimension. -/
def join2 (a b c : Image) : Image :=
  { rows := a.rows, cols := a.cols, depth := a.depth + b.depth + c.depth,
    elt := fun i j k =>
      if k < a.depth then a.elt i j k
      else if k < a.depth + b.depth then b.elt i j (k - a.depth)
      else c.elt i j (k - a.depth - b.depth) }

/-- The index range `seq(lo, hi)`. -/
structure Seq where
  lo : Int
  hi : Int
  deriving DecidableEq

/-- The number of indices in a range; none when `hi < lo`. -/
def Seq.size (s : Seq) : Nat := (s.hi - s.lo + 1).toNat

/-- The sub-array `a(r, c, span)`. -/
def crop (a : Image) (r c : Seq) : Image :=
  { rows := r.size, cols := c.size, depth := a.depth,
    elt := fun i j k => a.elt (r.lo.toNat + i) (c.lo.toNat + j) k }

/-- The array `iota(dim4(1,cols), dim4(rows))` of column indices. -/
def colIndex (rows cols : Int) : Image :=
  { rows := rows.toNat, cols := cols.toNat, depth := 1, elt := fun _ j _ => Flt.fin (j : ℚ) }

/-- The array `iota(dim4(rows), dim4(1,cols))` of row indices. -/
def rowIndex (rows cols : Int) : Image :=
  { rows := rows.toNat, cols := cols.toNat, depth := 1, elt := fun i _ _ => Flt.fin (i : ℚ) }

end Image

/-- The global array `one`, the constant 1.0.  It is initialised before `main`
runs, so its shape comes from the initial values of `rows` and `cols`, with
three channels. -/
def one : Image := Image.constant 1 1080 1920 3

/-- The ArrayFire primitives the program calls that compute new elements from
many old ones, together with its random number generator, whose state is a
number.  `rgbToHsv` is `colorSpace(., AF_HSV, AF_RGB)`, `hsvToRgb` is
`colorSpace(., AF_RGB, AF_HSV)`, `rotate` is called with crop and bicubic
interpolation, `randu` returns the drawn array and the next generator state. -/
structure Engine where
  setSeed : Int → Nat
  randu : Nat → Int → Int → Int → Image × Nat
  gaussianKernel : Int → Int → Image
  convolve2 : Image → Image → Image
  rotate : Image → Flt → Image
  resize : Image → Int → Int → Image
  rgbToHsv : Image → Image
  hsvToRgb : Image → Image
  cos : Image → Image
  sin : Image → Image
  approx2 : Image → Image → Image → Image
  histogram : Image → Nat → Flt → Flt → Image
  histEqual : Image → Image → Image

/-! ## The image operations -/

/-- The function `invert`. -/
def invert (eng : Engine) (param : Param) (img : Image) : Image :=
  if param.depth = 1 then img.rsub 1
  else
    let hsv := eng.rgbToHsv img
    let h := hsv.channel 0
    let s := hsv.channel 1
    let v := hsv.channel 2
    let v := v.rsub 1
    eng.hsvToRgb (Image.join2 h s v)

/-- The function `crawl`; `rows` and `cols` are the globals. -/
def crawl (eng : Engine) (param : Param) (rows cols : Int) (img : Image) : Image :=
  if param.depth = 1 then img
  else
    let hsv := eng.rgbToHsv img
    let h := hsv.channel 0
    let s := hsv.channel 1
    let v := hsv.channel 2
    let angle := h.scale (2 * PI)
    let dist := (((s.scale param.crawlds).add (v.scale param.crawldv)).add
      ((s.scale param.crawldsv).mul v)).addc param.crawld
    let coloff := dist.mul (eng.cos angle)
    let rowoff := dist.mul (eng.sin angle)
    let colidx := (Image.colIndex rows cols).add coloff
    let rowidx := (Image.rowIndex rows cols).add rowoff
    eng.approx2 img rowidx colidx

/-- The arithmetic of `noise` on given random arrays: `draw` is the array
`randu(rows,cols,1)` behind the mask and `u` the array
`randu(rows,cols,param.depth)` of magnitudes. -/
def noiseWith (param : Param) (draw u img : Image) : Image :=
  let mask := draw.gtc param.mutate
  if param.depth = 1 then
    img.add (((mask.scale (2 * param.noise))).mul (u.subc Flt.half))
  else
    img.add (((Image.join2 mask mask mask).scale (2 * param.noise)).mul (u.subc Flt.half))

/-- The function `noise`, from and to a state of the random number generator. -/
def noise (eng : Engine) (param : Param) (rows cols : Int) (img : Image) (rng : Nat) :
    Image × Nat :=
  let d := eng.randu rng rows cols 1
  let r := eng.randu d.2 rows cols param.depth
  (noiseWith param d.1 r.1 img, r.2)

/-- The function `clip`. -/
def clip (img : Image) : Image :=
  let clip := img.ltc 1
  img.replace clip one

/-- The function `roll`. -/
def roll (eng : Engine) (param : Param) (img : Image) : Image :=
  eng.rotate img (param.roll * PI / Flt.fin 180)

/-- The function `blend`; `image` is the global array of that name. -/
def blend (param : Param) (image img : Image) : Image :=
  (img.scale param.blend).add (image.scale (1 - param.blend))

/-- The function `blur`. -/
def blur (eng : Engine) (param : Param) (img : Image) : Image :=
  eng.convolve2 img (eng.gaussianKernel param.blur param.blur)

/-- The function `sharpen`. -/
def sharpen (eng : Engine) (param : Param) (img : Image) : Image :=
  img.add ((img.sub (eng.convolve2 img (eng.gaussianKernel 3 3))).scale param.sharpen)

/-- The function `histeq`. -/
def histeq (eng : Engine) (param : Param) (img : Image) : Image :=
  if param.depth = 1 then
    let v := img.scale (Flt.fin 255)
    let histo := eng.histogram v 256 0 (Flt.fin 255)
    (eng.histEqual v histo).divc (Flt.fin 255)
  else
    let img_hsv := eng.rgbToHsv img
    let v := (img_hsv.channel 2).scale (Flt.fin 255)
    let histo := eng.histogram v 256 0 (Flt.fin 255)
    let vnorm := (eng.histEqual v histo).divc (Flt.fin 256)
    eng.hsvToRgb (img_hsv.setChannel 2 vnorm)

/-- The number of pixels `zoom` shaves off each side of a dimension of size
`dim`: `(int)(0.5 + 0.5*dim*(param.zoom-1.0))`. -/
def shave (param : Param) (dim : Int) : Int :=
  toInt (Flt.half + Flt.half * Flt.fin (dim : ℚ) * (param.zoom - 1))

/-- The index range `seq(shave, dim-shave-1)` that `zoom` keeps of a dimension. -/
def keep (param : Param) (dim : Int) : Image.Seq :=
  { lo := shave param dim, hi := dim - shave param dim - 1 }

/-- The function `zoom`. -/
def zoom (eng : Engine) (param : Param) (inp : Image) : Image :=
  let rows : Int := inp.rows
  let cols : Int := inp.cols
  let cropped := inp.crop (keep param rows) (keep param cols)
  eng.resize cropped rows cols

/-! ## The pipeline and the feedback loop -/

/-- The call `(*pipeline[i])(in)` for one pipeline slot; `image` is the global
array that `blend` reads, `rng` the state of the random number generator. -/
def applyStage (eng : Engine) (g : Globals) (image : Image) (f : Stage) (inp : Image)
    (rng : Nat) : Image × Nat :=
  match f with
  | .blur => (blur eng g.param inp, rng)
  | .sharpen => (sharpen eng g.param inp, rng)
  | .roll => (roll eng g.param inp, rng)
  | .blend => (blend g.param image inp, rng)
  | .zoom => (zoom eng g.param inp, rng)
  | .crawl => (crawl eng g.param g.rows g.cols inp, rng)
  | .noise => noise eng g.param g.rows g.cols inp rng
  | .histeq => (histeq eng g.param inp, rng)
  | .invert => (invert eng g.param inp, rng)

/-- The loop of `run` over the pipeline slots that are still to be executed. -/
def runFrom (eng : Engine) (g : Globals) (image : Image) :
    List Stage → Image → Nat → Image × Nat
  | [], inp, rng => (inp, rng)
  | f :: rest, inp, rng =>
    let out := applyStage eng g image f inp rng
    runFrom eng g image rest out.1 out.2

/-- The function `run`: all slots of the global pipeline, first to last. -/
def run (eng : Engine) (g : Globals) (image : Image) (inp : Image) (rng : Nat) : Image × Nat :=
  runFrom eng g image g.pipeline inp rng

/-- Left padding of a digit string with zeros to a minimal width. -/
def zeroPad (width : Nat) (ds : CStr) : CStr :=
  List.replicate (width - ds.length) '0' ++ ds

/-- The conversion `%05d` of `sprintf`: decimal, zero padded to at least five
characters. -/
def fmt05d (n : Int) : CStr :=
  if n < 0 then '-' :: zeroPad 4 (Nat.toDigits 10 n.natAbs)
  else zeroPad 5 (Nat.toDigits 10 n.toNat)

/-- The string that the format `"%s/frame%05d.png"` yields for `dumpdir` and
`frame`. -/
def frameName (dumpdir : CStr) (frame : Int) : CStr :=
  dumpdir ++ "/frame".toList ++ fmt05d frame ++ ".png".toList

/-- The call `sprintf(buf,"%s/frame%05d.png",dumpdir,frame)` into the array
`char buf[80]`: the string written, when it fits into the array together
with its terminating NUL; `none` when the call writes behind the end of the
array, from where on the behaviour of the program is undefined. -/
def sprintfFrame (dumpdir : CStr) (frame : Int) : Option CStr :=
  if (frameName dumpdir frame).length + 1 ≤ 80 then some (frameName dumpdir frame) else none

/-- What one pass of the main loop hands to the outside: a file written by
`saveImage`, or an array rendered to the window. -/
inductive Output
  | saved (name : CStr) (img : Image)
  | shown (img : Image)

/-- The variables of the main loop: the global `image`, the state of the
random number generator, the counter `frame`, and the outputs so far. -/
structure LoopState where
  image : Image
  rng : Nat
  frame : Int
  out : List Output

/-- The first statement of the loop body, `image = run(image)`. -/
def commit (eng : Engine) (g : Globals) (s : LoopState) : LoopState :=
  let r := run eng g s.image s.image s.rng
  { s with image := r.1, rng := r.2 }

/-- The second statement of the loop body, dump or display of `image`: the
output it produces, `none` when `sprintf` overruns `buf`. -/
def output (g : Globals) (s : LoopState) : Option Output :=
  match g.dumpdir with
  | some dumpdir =>
    match sprintfFrame dumpdir s.frame with
    | some buf => some (Output.saved buf (clip s.image))
    | none => none
  | none => some (Output.shown s.image)

/-- The body of the main loop: `image = run(image)`, dump or display, and
`frame++`; `none` when `sprintf` overruns `buf`. -/
def tick (eng : Engine) (g : Globals) (s : LoopState) : Option LoopState :=
  let s1 := commit eng g s
  match output g s1 with
  | some o => some { s1 with frame := s1.frame + 1, out := s1.out ++ [o] }
  | none => none

/-- The condition of the main loop; `closes frame` is the answer of
`win->close()` when it is asked before the pass that follows `frame` passes. -/
def loopCond (g : Globals) (closes : Int → Bool) (s : LoopState) : Bool :=
  match g.dumpdir with
  | some _ => decide (s.frame < g.nframes)
  | none => !closes s.frame

/-- How a run of the main loop ends: in a state in which the loop condition
fails, in a pass, entered in the given state, whose `sprintf` overruns `buf`
(undefined behaviour), or not within the passes granted. -/
inductive LoopResult
  | stopped (s : LoopState)
  | overrun (s : LoopState)
  | unfinished

/-- The main loop, for at most `fuel` passes. -/
def mainLoop (eng : Engine) (g : Globals) (closes : Int → Bool) : Nat → LoopState → LoopResult
  | 0, s => if loopCond g closes s then .unfinished else .stopped s
  | fuel + 1, s =>
    if loopCond g closes s then
      match tick eng g s with
      | some s2 => mainLoop eng g closes fuel s2
      | none => .overrun s
    else .stopped s

/-- The seed with which `main` seeds the generator: the scanned seed, or, when
that is zero, the result `entropy` of `randseed` (`none` when the entropy
pool cannot be read, which ends the process). -/
def resolveSeed (g : Globals) (entropy : Option Int) : Except Fatal Globals :=
  if g.param.seed = 0 then
    match entropy with
    | some e => pure { g with param := { g.param with seed := e } }
    | none => throw Fatal.noEntropy
  else pure g

/-- The variables of the main loop when it is entered: the random initial
image, the frame counter zero, nothing put out yet.  `setSeed` of the engine
stands for seeding and choosing the generator. -/
def initialState (eng : Engine) (g : Globals) : LoopState :=
  let rng := eng.setSeed g.param.seed
  let r := eng.randu rng g.rows g.cols g.param.depth
  { image := r.1, rng := r.2, frame := 0, out := [] }

/-- The function `main` up to the end of the main loop. -/
def main (lib : CLib) (eng : Engine) (argv : List CStr) (entropy : Option Int)
    (closes : Int → Bool) (fuel : Nat) : Except Fatal LoopResult := do
  let g0 := { startGlobals with param := defaultParam }
  let g1 ← scanargs lib argv g0
  let g ← resolveSeed g1 entropy
  pure (mainLoop eng g closes fuel (initialState eng g))

/-- An engine for running the program on concrete inputs: random draws are the
constant one half, and the resampling primitives keep the elements (resize
only changes the shape). -/
def plainEngine : Engine where
  setSeed := fun seed => seed.toNat
  randu := fun rng rows cols depth =>
    (Image.constant Flt.half rows.toNat cols.toNat depth.toNat, rng + 1)
  gaussianKernel := fun r c => Image.constant 1 r.toNat c.toNat 1
  convolve2 := fun a _ => a
  rotate := fun a _ => a
  resize := fun a rows cols => { a with rows := rows.toNat, cols := cols.toNat }
  rgbToHsv := fun a => a
  hsvToRgb := fun a => a
  cos := fun a => a
  sin := fun a => a
  approx2 := fun a _ _ => a
  histogram := fun a _ _ _ => a
  histEqual := fun a _ => a

/-! ## The directives as the specification words them -/

/-- The directive keywords. -/
def keywords : List CStr :=
  ["rows".toList, "cols".toList, "blur".toList, "sharpen".toList, "roll".toList,
   "blend".toList, "zoom".toList, "crawl".toList, "noise".toList, "histeq".toList,
   "invert".toList, "depth".toList, "seed".toList, "dump".toList, "nframes".toList]

/-- A token that contains exactly one directive keyword. -/
def OneKeyword (t : CStr) : Prop :=
  ∃ k ∈ keywords, k <:+: t ∧ ∀ k2 ∈ keywords, k2 <:+: t → k2 = k

/-- The stage-producing keywords with the transform each one names. -/
def stageKeywords : List (CStr × Stage) :=
  [("blur".toList, .blur), ("sharpen".toList, .sharpen), ("roll".toList, .roll),
   ("blend".toList, .blend), ("zoom".toList, .zoom), ("crawl".toList, .crawl),
   ("noise".toList, .noise), ("histeq".toList, .histeq), ("invert".toList, .invert)]

/-- The value of a directive: the text of the token behind the first occurrence
of the keyword and the one separator character that follows it. -/
def directiveValue (k t : CStr) : CStr :=
  ((strstr t k).getD []).drop (k.length + 1)

/-- The stage that a token contributes according to the specification: the
transform named by the stage keyword it contains, nothing for the other
directives, and nothing for a blur token whose size equals 1. -/
def namedStage (lib : CLib) (t : CStr) : Option Stage :=
  match stageKeywords.find? (fun ks => decide (ks.1 <:+: t)) with
  | some (_, .blur) =>
    if lib.atoi (directiveValue "blur".toList t) = 1 then none else some .blur
  | some (_, f) => some f
  | none => none

/-- The pipeline the specification asks for: one stage per stage-producing
token, in the order of the tokens. -/
def expectedPipeline (lib : CLib) (tokens : List CStr) : List Stage :=
  tokens.filterMap (namedStage lib)

/-- A token whose directive carries its value in the expected form: apart from
the flags `histeq` and `invert` the keyword is followed by a separator
character (so that the value lies inside the token), and the values of
`crawl` and `noise` are four and two comma-delimited floats. -/
def ValueOk (lib : CLib) (t : CStr) : Prop :=
  ∀ k ∈ keywords, k <:+: t →
    (k ≠ "histeq".toList → k ≠ "invert".toList →
      k.length + 1 ≤ ((strstr t k).getD []).length) ∧
    (k = "crawl".toList → (lib.sscanf4 (directiveValue k t)).isSome = true) ∧
    (k = "noise".toList → (lib.sscanf2 (directiveValue k t)).isSome = true)

instance decidableOneKeyword : DecidablePred OneKeyword := fun t => by
  unfold OneKeyword
  infer_instance

instance decidableValueOk (lib : CLib) : DecidablePred (ValueOk lib) := fun t => by
  unfold ValueOk
  infer_instance

/-- A sample command line: `invert` twice, a blur of size 1, a blur of size 3,
and the non-stage directive `rows`. -/
def sampleTokens : List CStr :=
  ["--invert".toList, "--blur=1".toList, "--roll=1".toList, "--rows=64".toList,
   "--invert".toList, "--blur=3".toList]

/-- The keywords that the directive chain tests before it tests `dump`. -/
def keywordsBeforeDump : List CStr :=
  ["rows".toList, "cols".toList, "blur".toList, "sharpen".toList, "roll".toList,
   "blend".toList, "zoom".toList, "crawl".toList, "noise".toList, "histeq".toList,
   "invert".toList, "depth".toList, "seed".toList]

/-- The file name of an output, when it is a saved file. -/
def Output.name : Output → Option CStr
  | .saved name _ => some name
  | .shown _ => none

/-- The array handed over by an output. -/
def Output.img : Output → Image
  | .saved _ img => img
  | .shown img => img

/-- The number of passes a run of the main loop completed, when it stopped. -/
def LoopResult.frames : LoopResult → Option Int
  | .stopped s => some s.frame
  | _ => none

/-- The globals of a greyscale file-dump run of five frames into `/tmp/out`,
with the pipeline invert, blend and the blend coefficient 1/4. -/
def sampleDump : Globals :=
  { defaultGlobals with
      param := { defaultParam with blend := Flt.fin (1 / 4), depth := 1 },
      dumpdir := some "/tmp/out".toList, nframes := 5,
      pipeline := [Stage.invert, Stage.blend] }

/-- A loop state at the start of a run, with a 2 x 2 greyscale image of the
value 3. -/
def sampleStart : LoopState :=
  { image := Image.constant (Flt.fin 3) 2 2 1, rng := 0, frame := 0, out := [] }

/-- A directory name of 65 characters. -/
def longDir : CStr := "/tmp/".toList ++ List.replicate 60 'x'

/-- The state that a pass of the main loop leaves in file-dump mode when the
file name fits into `buf`. -/
def dumpPass (eng : Engine) (g : Globals) (dumpdir : CStr) (s : LoopState) : LoopState :=
  let s1 := commit eng g s
  { s1 with
      frame := s1.frame + 1,
      out := s1.out ++ [Output.saved (frameName dumpdir s1.frame) (clip s1.image)] }

/-! ## Properties of the floating point values -/

theorem Flt.zero_eq : (0 : Flt) = Flt.fin 0 := rfl

theorem Flt.one_eq : (1 : Flt) = Flt.fin 1 := rfl

theorem Flt.two_eq : (2 : Flt) = Flt.fin 2 := rfl

theorem Flt.fin_add_fin (a b : ℚ) : Flt.fin a + Flt.fin b = Flt.fin (a + b) := rfl

theorem Flt.fin_sub_fin (a b : ℚ) : Flt.fin a - Flt.fin b = Flt.fin (a - b) := by
  show Flt.add (Flt.fin a) (Flt.neg (Flt.fin b)) = Flt.fin (a - b)
  simp [Flt.add, Flt.neg, sub_eq_add_neg]

theorem Flt.fin_mul_fin (a b : ℚ) : Flt.fin a * Flt.fin b = Flt.fin (a * b) := rfl

theorem Flt.fin_lt_fin (a b : ℚ) : Flt.fin a < Flt.fin b ↔ a < b := Iff.rfl

theorem Flt.not_nan_lt (x : Flt) : ¬ Flt.nan < x := by
  intro h
  cases x <;> exact h

theorem Flt.not_lt_nan (x : Flt) : ¬ x < Flt.nan := by
  intro h
  cases x <;> exact h

theorem Flt.not_nan_le (x : Flt) : ¬ Flt.nan ≤ x := by
  intro h
  cases x <;> exact h

theorem Flt.not_le_nan (x : Flt) : ¬ x ≤ Flt.nan := by
  intro h
  cases x <;> exact h

theorem Flt.lt_or_gt_of_not_between {x : Flt} {a b : ℚ} (hx : x ≠ Flt.nan)
    (h : ¬ (Flt.fin a ≤ x ∧ x ≤ Flt.fin b)) : x < Flt.fin a ∨ x > Flt.fin b := by
  cases x with
  | fin q =>
    by_cases h1 : q < a
    · exact Or.inl h1
    · right
      show b < q
      by_contra h2
      exact h ⟨not_lt.1 h1, not_lt.1 h2⟩
  | pinf => exact Or.inr trivial
  | ninf => exact Or.inl trivial
  | nan => exact absurd rfl hx

theorem Flt.one_mul_eq (x : Flt) : 1 * x = x := by
  cases x with
  | fin a =>
    show Flt.fin (1 * a) = Flt.fin a
    simp
  | pinf =>
    show Flt.scaleInf 1 = Flt.pinf
    simp [Flt.scaleInf]
  | ninf =>
    show Flt.scaleInf (-1) = Flt.ninf
    simp [Flt.scaleInf]
  | nan => rfl

theorem Flt.add_zero_eq (x : Flt) : x + 0 = x := by
  cases x with
  | fin a =>
    show Flt.fin (a + 0) = Flt.fin a
    simp
  | pinf => rfl
  | ninf => rfl
  | nan => rfl

theorem Flt.zero_add_eq (x : Flt) : 0 + x = x := by
  cases x with
  | fin a =>
    show Flt.fin (0 + a) = Flt.fin a
    simp
  | pinf => rfl
  | ninf => rfl
  | nan => rfl

theorem Flt.zero_mul_finite {x : Flt} (h : x.isFinite) : 0 * x = 0 := by
  cases x with
  | fin a =>
    show Flt.fin (0 * a) = Flt.fin 0
    simp
  | pinf => exact h.elim
  | ninf => exact h.elim
  | nan => exact h.elim

theorem sanityCheck_ok_or_error (g : Globals) :
    sanityCheck g = .ok g ∨ ∃ e, sanityCheck g = .error e := by
  unfold sanityCheck
  split_ifs
  · exact Or.inr ⟨_, rfl⟩
  · exact Or.inr ⟨_, rfl⟩
  · exact Or.inr ⟨_, rfl⟩
  · exact Or.inr ⟨_, rfl⟩
  · exact Or.inr ⟨_, rfl⟩
  · exact Or.inl rfl

theorem tmod_two_eq_one_iff_odd (b : Int) (h : 1 ≤ b) : b.tmod 2 = 1 ↔ Odd b := by
  rw [Int.tmod_eq_emod (by omega) (by norm_num), Int.odd_iff]

/-- The sanity check passes exactly when none of its comparisons holds. -/
theorem sanityCheck_ok_iff (g : Globals) :
    sanityCheck g = .ok g ↔
      (0 < g.param.blur ∧ Odd g.param.blur) ∧
      (¬ g.param.blend < 0 ∧ ¬ g.param.blend > 1) ∧
      (¬ g.param.zoom < 1 ∧ ¬ g.param.zoom > 2) ∧
      (¬ g.param.noise < 0 ∧ ¬ g.param.noise > 1) ∧
      (¬ g.param.mutate < 0 ∧ ¬ g.param.mutate > 1) ∧
      (g.param.depth = 1 ∨ g.param.depth = 3) := by
  unfold sanityCheck
  constructor
  · intro h
    split_ifs at h with h1 h2 h3 h4 h5
    push_neg at h1 h5
    have hb : 1 ≤ g.param.blur := h1.1
    refine ⟨⟨by omega, (tmod_two_eq_one_iff_odd _ hb).1 h1.2⟩,
      ⟨fun h => h2 (Or.inl h), fun h => h2 (Or.inr h)⟩,
      ⟨fun h => h3 (Or.inl h), fun h => h3 (Or.inr h)⟩,
      ⟨fun h => h4 (Or.inl h), fun h => h4 (Or.inr (Or.inl h))⟩,
      ⟨fun h => h4 (Or.inr (Or.inr (Or.inl h))), fun h => h4 (Or.inr (Or.inr (Or.inr h)))⟩, ?_⟩
    by_cases hd : g.param.depth = 1
    · exact Or.inl hd
    · exact Or.inr (h5 hd)
  · rintro ⟨⟨hb, hodd⟩, ⟨h2a, h2b⟩, ⟨h3a, h3b⟩, ⟨h4a, h4b⟩, ⟨h5a, h5b⟩, hd⟩
    have hb1 : 1 ≤ g.param.blur := hb
    have ht : g.param.blur.tmod 2 = 1 := (tmod_two_eq_one_iff_odd _ hb1).2 hodd
    rw [if_neg (by push_neg; exact ⟨hb1, ht⟩),
      if_neg (fun h => h.elim h2a h2b),
      if_neg (fun h => h.elim h3a h3b),
      if_neg (fun h => h.elim h4a (fun h => h.elim h4b (fun h => h.elim h5a h5b))),
      if_neg (by
        rcases hd with hd | hd
        · exact fun h => h.1 hd
        · exact fun h => h.2 hd)]
    rfl

/-- On parameter values that are numbers (not NaN) the sanity check rejects
every record that is out of range: blur not a positive odd integer, blend
outside [0,1], zoom outside [1,2], noise level or mutation fraction outside
[0,1], or depth neither 1 nor 3. -/
theorem sanityCheck_rejects_numbers (g : Globals)
    (hnum : g.param.blend ≠ Flt.nan ∧ g.param.zoom ≠ Flt.nan ∧ g.param.noise ≠ Flt.nan ∧
      g.param.mutate ≠ Flt.nan)
    (hbad : ¬ (0 < g.param.blur ∧ Odd g.param.blur) ∨
      ¬ (0 ≤ g.param.blend ∧ g.param.blend ≤ 1) ∨ ¬ (1 ≤ g.param.zoom ∧ g.param.zoom ≤ 2) ∨
      ¬ (0 ≤ g.param.noise ∧ g.param.noise ≤ 1) ∨ ¬ (0 ≤ g.param.mutate ∧ g.param.mutate ≤ 1) ∨
      ¬ (g.param.depth = 1 ∨ g.param.depth = 3)) :
    ∃ e, sanityCheck g = .error e := by
  rcases sanityCheck_ok_or_error g with hok | he
  · exfalso
    obtain ⟨h1, h2, h3, h4, h5, h6⟩ := (sanityCheck_ok_iff g).1 hok
    rcases hbad with h | h | h | h | h | h
    · exact h h1
    · rcases Flt.lt_or_gt_of_not_between hnum.1 h with hl | hr
      · exact h2.1 hl
      · exact h2.2 hr
    · rcases Flt.lt_or_gt_of_not_between hnum.2.1 h with hl | hr
      · exact h3.1 hl
      · exact h3.2 hr
    · rcases Flt.lt_or_gt_of_not_between hnum.2.2.1 h with hl | hr
      · exact h4.1 hl
      · exact h4.2 hr
    · rcases Flt.lt_or_gt_of_not_between hnum.2.2.2 h with hl | hr
      · exact h5.1 hl
      · exact h5.2 hr
    · exact h h6
  · exact he

theorem scanargs_eq (lib : CLib) (argv : List CStr) (g0 g : Globals)
    (h : scanLoop lib (argv.drop 1) g0 = .ok g) : scanargs lib argv g0 = sanityCheck g := by
  unfold scanargs
  rw [h]
  rfl

theorem main_error_of_scanargs (lib : CLib) (eng : Engine) (argv : List CStr)
    (entropy : Option Int) (closes : Int → Bool) (fuel : Nat) (e : Fatal)
    (h : scanargs lib argv defaultGlobals = .error e) :
    main lib eng argv entropy closes fuel = .error e := by
  unfold main
  change (scanargs lib argv defaultGlobals >>= _) = _
  rw [h]
  rfl

theorem scanLoop_blend_15 (lib : CLib) :
    scanLoop lib ["--blend=1.5".toList] defaultGlobals =
      .ok ({ defaultGlobals with param :=
        { defaultParam with blend := lib.toFloat (lib.atof "1.5".toList) } }.push .blend) := rfl

theorem scanLoop_zoom_09 (lib : CLib) :
    scanLoop lib ["--zoom=0.9".toList] defaultGlobals =
      .ok ({ defaultGlobals with param :=
        { defaultParam with zoom := lib.toFloat (lib.atof "0.9".toList) } }.push .zoom) := rfl

theorem scanLoop_blur_4 (lib : CLib) (h : lib.atoi "4".toList = 4) :
    scanLoop lib ["--blur=4".toList] defaultGlobals =
      .ok ({ defaultGlobals with param := { defaultParam with blur := 4 } }.push .blur) := by
  have e : scanLoop lib ["--blur=4".toList] defaultGlobals =
      checkCapacity
        (if lib.atoi "4".toList ≠ 1 then
          ({ defaultGlobals with param :=
            { defaultParam with blur := lib.atoi "4".toList } }.push .blur)
        else { defaultGlobals with param :=
            { defaultParam with blur := lib.atoi "4".toList } }) := by
    show (scanArg lib defaultGlobals "--blur=4".toList >>= fun g1 =>
      checkCapacity g1 >>= fun g2 => scanLoop lib [] g2) = _
    have : scanArg lib defaultGlobals "--blur=4".toList = .ok
        (if lib.atoi "4".toList ≠ 1 then
          ({ defaultGlobals with param :=
            { defaultParam with blur := lib.atoi "4".toList } }.push .blur)
        else { defaultGlobals with param :=
            { defaultParam with blur := lib.atoi "4".toList } }) := rfl
    rw [this]
    show (checkCapacity _ >>= fun g2 => scanLoop lib [] g2) = _
    cases checkCapacity _ <;> rfl
  rw [e, h]
  rfl

theorem scanLoop_depth_2 (lib : CLib) :
    scanLoop lib ["--depth=2".toList] defaultGlobals =
      .ok { defaultGlobals with param :=
        { defaultParam with depth := lib.atoi "2".toList } } := rfl

theorem default_blend_in_range : ¬ (defaultParam.blend < 0 ∨ defaultParam.blend > 1) := by
  simp only [defaultParam, Flt.half, Flt.zero_eq, Flt.one_eq, Flt.fin_lt_fin, GT.gt]
  norm_num

theorem default_zoom_in_range : ¬ (defaultParam.zoom < 1 ∨ defaultParam.zoom > 2) := by
  simp only [defaultParam, Flt.one_eq, Flt.two_eq, Flt.fin_lt_fin, GT.gt]
  norm_num

theorem default_noise_in_range :
    ¬ (defaultParam.noise < 0 ∨ defaultParam.noise > 1 ∨ defaultParam.mutate < 0 ∨
      defaultParam.mutate > 1) := by
  simp only [defaultParam, Flt.zero_eq, Flt.one_eq, Flt.fin_lt_fin, GT.gt]
  norm_num

/-- The four command lines `--blend=1.5`, `--zoom=0.9`, `--blur=4` and
`--depth=2` (all else at the defaults) end `main` with the matching fatal
error, before the feedback loop, given that the C library reads 1.5 as more
than 1, 0.9 as less than 1, and 4 and 2 as themselves. -/
theorem listed_command_lines_rejected (lib : CLib) (eng : Engine) (entropy : Option Int)
    (closes : Int → Bool) (fuel : Nat) (prog : CStr) :
    (1 < lib.toFloat (lib.atof "1.5".toList) →
      main lib eng [prog, "--blend=1.5".toList] entropy closes fuel = .error .blendRange) ∧
    (lib.toFloat (lib.atof "0.9".toList) < 1 →
      main lib eng [prog, "--zoom=0.9".toList] entropy closes fuel = .error .zoomRange) ∧
    (lib.atoi "4".toList = 4 →
      main lib eng [prog, "--blur=4".toList] entropy closes fuel = .error .blurNotPositiveOdd) ∧
    (lib.atoi "2".toList = 2 →
      main lib eng [prog, "--depth=2".toList] entropy closes fuel = .error .depthInvalid) := by
  refine ⟨?_, ?_, ?_, ?_⟩
  · intro h
    apply main_error_of_scanargs
    rw [scanargs_eq lib [prog, "--blend=1.5".toList] defaultGlobals _ (scanLoop_blend_15 lib)]
    simp only [sanityCheck, Globals.push]
    rw [if_neg (by decide), if_pos (Or.inr h)]
    rfl
  · intro h
    apply main_error_of_scanargs
    rw [scanargs_eq lib [prog, "--zoom=0.9".toList] defaultGlobals _ (scanLoop_zoom_09 lib)]
    simp only [sanityCheck, Globals.push]
    rw [if_neg (by decide), if_neg default_blend_in_range, if_pos (Or.inl h)]
    rfl
  · intro h
    apply main_error_of_scanargs
    rw [scanargs_eq lib [prog, "--blur=4".toList] defaultGlobals _ (scanLoop_blur_4 lib h)]
    simp only [sanityCheck, Globals.push]
    rw [if_pos (by decide)]
    rfl
  · intro h
    apply main_error_of_scanargs
    rw [scanargs_eq lib [prog, "--depth=2".toList] defaultGlobals _ (scanLoop_depth_2 lib)]
    simp only [sanityCheck]
    rw [if_neg (by decide), if_neg default_blend_in_range, if_neg default_zoom_in_range,
      if_neg default_noise_in_range, if_pos (by rw [h]; decide)]
    rfl

theorem atofDec_15 : atofDec "1.5".toList = Flt.fin (3 / 2) := by
  have h : atofDec "1.5".toList = Flt.fin (((15 : ℕ) : ℚ) / (10 : ℚ) ^ 1) := rfl
  rw [h]
  congr 1
  norm_num

theorem atofDec_09 : atofDec "0.9".toList = Flt.fin (9 / 10) := by
  have h : atofDec "0.9".toList = Flt.fin (((9 : ℕ) : ℚ) / (10 : ℚ) ^ 1) := rfl
  rw [h]
  norm_num

/-- The four command lines on the decimal C library and the plain engine. -/
theorem listed_command_lines_rejected_decimal :
    main decLib plainEngine ["fb".toList, "--blend=1.5".toList] none (fun _ => true) 0
        = .error .blendRange ∧
    main decLib plainEngine ["fb".toList, "--zoom=0.9".toList] none (fun _ => true) 0
        = .error .zoomRange ∧
    main decLib plainEngine ["fb".toList, "--blur=4".toList] none (fun _ => true) 0
        = .error .blurNotPositiveOdd ∧
    main decLib plainEngine ["fb".toList, "--depth=2".toList] none (fun _ => true) 0
        = .error .depthInvalid :=
  have T := listed_command_lines_rejected decLib plainEngine none (fun _ => true) 0 "fb".toList
  ⟨T.1 (by
      show (1 : Flt) < atofDec "1.5".toList
      rw [atofDec_15, Flt.one_eq, Flt.fin_lt_fin]
      norm_num),
    T.2.1 (by
      show atofDec "0.9".toList < (1 : Flt)
      rw [atofDec_09, Flt.one_eq, Flt.fin_lt_fin]
      norm_num),
    T.2.2.1 rfl, T.2.2.2 rfl⟩

theorem main_eq (lib : CLib) (eng : Engine) (argv : List CStr) (entropy : Option Int)
    (closes : Int → Bool) (fuel : Nat) (g1 g : Globals)
    (hscan : scanargs lib argv defaultGlobals = .ok g1) (hseed : resolveSeed g1 entropy = .ok g) :
    main lib eng argv entropy closes fuel =
      .ok (mainLoop eng g closes fuel (initialState eng g)) := by
  unfold main
  change (scanargs lib argv defaultGlobals >>= fun g1 =>
    resolveSeed g1 entropy >>= fun g =>
      pure (mainLoop eng g closes fuel (initialState eng g))) = _
  rw [hscan]
  change (resolveSeed g1 entropy >>= fun g =>
      pure (mainLoop eng g closes fuel (initialState eng g))) = _
  rw [hseed]
  rfl

/-- C1, the failing input: the command line `--blend=nan`.  The C library reads
`nan` as NaN, on which both comparisons of the range check are false, so
`scanargs` accepts a blend coefficient that is not in [0,1], with a blend
stage in the pipeline, and `main` enters the feedback loop: with a window
that is closed after the first frame the loop stops after one tick. -/
theorem nan_blend_accepted :
    scanargs decLib ["fb".toList, "--blend=nan".toList] defaultGlobals =
      .ok { defaultGlobals with
        param := { defaultParam with blend := Flt.nan }, pipeline := [Stage.blend] } ∧
    ¬ ((0 : Flt) ≤ Flt.nan ∧ Flt.nan ≤ (1 : Flt)) ∧
    (main decLib plainEngine ["fb".toList, "--blend=nan".toList] (some 7)
        (fun frame => decide (1 ≤ frame)) 1).map LoopResult.frames = .ok (some 1) := by
  have hl : scanLoop decLib (["fb".toList, "--blend=nan".toList].drop 1) defaultGlobals =
      .ok { defaultGlobals with
        param := { defaultParam with blend := Flt.nan }, pipeline := [Stage.blend] } := rfl
  have hs : scanargs decLib ["fb".toList, "--blend=nan".toList] defaultGlobals =
      .ok { defaultGlobals with
        param := { defaultParam with blend := Flt.nan }, pipeline := [Stage.blend] } := by
    rw [scanargs_eq decLib _ defaultGlobals _ hl, sanityCheck_ok_iff]
    simp only [defaultGlobals, startGlobals, defaultParam, Flt.half, Flt.zero_eq, Flt.one_eq,
      Flt.two_eq, Flt.fin_lt_fin, GT.gt]
    refine ⟨⟨by decide, by decide⟩, ⟨Flt.not_nan_lt _, Flt.not_lt_nan _⟩, ?_, ?_, ?_, ?_⟩ <;>
      norm_num
  refine ⟨hs, fun h => Flt.not_le_nan _ h.1, ?_⟩
  rw [main_eq decLib plainEngine _ (some 7) _ 1 _
    { defaultGlobals with
        param := { defaultParam with blend := Flt.nan, seed := 7 }, pipeline := [Stage.blend] }
    hs rfl]
  rfl

/-! ### The pipeline built by the scanner -/

theorem strstr_eq_none_iff (t k : CStr) : strstr t k = none ↔ ¬ k <:+: t := by
  induction t with
  | nil =>
    cases k with
    | nil => simp [strstr]
    | cons a k => simp [strstr]
  | cons c cs ih =>
    unfold strstr
    by_cases hp : k <+: c :: cs
    · have hb : k.isPrefixOf (c :: cs) = true := List.isPrefixOf_iff_prefix.2 hp
      simp [hb, hp.isInfix]
    · have hb : ¬ (k.isPrefixOf (c :: cs) = true) := fun h => hp (List.isPrefixOf_iff_prefix.1 h)
      rw [if_neg hb, ih, List.infix_cons_iff]
      tauto

theorem strstr_isSome_of_infix (t k : CStr) (h : k <:+: t) : ∃ c, strstr t k = some c := by
  cases hs : strstr t k with
  | none => exact absurd h ((strstr_eq_none_iff t k).1 hs)
  | some c => exact ⟨c, rfl⟩

theorem valueAt_ok (c : CStr) (k : Nat) (h : k ≤ c.length) : valueAt c k = .ok (c.drop k) := by
  simp [valueAt, ptrAdd, h]

/-! ### The branches of the directive chain

Each lemma states what one pass of the scanning loop does when the named
keyword is the first of the chain that occurs in the argument. -/

theorem scanArg_rows (lib : CLib) (g : Globals) (t c : CStr)
    (h : strstr t "rows".toList = some c) :
    scanArg lib g t = (valueAt c 5 >>= fun v => pure { g with rows := toInt (lib.atof v) }) := by
  unfold scanArg
  rw [h]

theorem scanArg_cols (lib : CLib) (g : Globals) (t c : CStr)
    (n1 : strstr t "rows".toList = none)
    (h : strstr t "cols".toList = some c) :
    scanArg lib g t = (valueAt c 5 >>= fun v => pure { g with cols := toInt (lib.atof v) }) := by
  unfold scanArg
  rw [n1, h]

theorem scanArg_blur (lib : CLib) (g : Globals) (t c : CStr)
    (n1 : strstr t "rows".toList = none)
    (n2 : strstr t "cols".toList = none)
    (h : strstr t "blur".toList = some c) :
    scanArg lib g t = (valueAt c 5 >>= fun v =>
      pure (if lib.atoi v ≠ 1 then
          { g with param := { g.param with blur := lib.atoi v } }.push .blur
        else { g with param := { g.param with blur := lib.atoi v } })) := by
  unfold scanArg
  rw [n1, n2, h]

theorem scanArg_sharpen (lib : CLib) (g : Globals) (t c : CStr)
    (n1 : strstr t "rows".toList = none)
    (n2 : strstr t "cols".toList = none)
    (n3 : strstr t "blur".toList = none)
    (h : strstr t "sharpen".toList = some c) :
    scanArg lib g t = (valueAt c 8 >>= fun v =>
      pure ({ g with param := { g.param with sharpen := lib.toFloat (lib.atof v) } }.push .sharpen)) := by
  unfold scanArg
  rw [n1, n2, n3, h]

theorem scanArg_roll (lib : CLib) (g : Globals) (t c : CStr)
    (n1 : strstr t "rows".toList = none)
    (n2 : strstr t "cols".toList = none)
    (n3 : strstr t "blur".toList = none)
    (n4 : strstr t "sharpen".toList = none)
    (h : strstr t "roll".toList = some c) :
    scanArg lib g t = (valueAt c 5 >>= fun v =>
      pure ({ g with param := { g.param with roll := lib.toFloat (lib.atof v) } }.push .roll)) := by
  unfold scanArg
  rw [n1, n2, n3, n4, h]

theorem scanArg_blend (lib : CLib) (g : Globals) (t c : CStr)
    (n1 : strstr t "rows".toList = none)
    (n2 : strstr t "cols".toList = none)
    (n3 : strstr t "blur".toList = none)
    (n4 : strstr t "sharpen".toList = none)
    (n5 : strstr t "roll".toList = none)
    (h : strstr t "blend".toList = some c) :
    scanArg lib g t = (valueAt c 6 >>= fun v =>
      pure ({ g with param := { g.param with blend := lib.toFloat (lib.atof v) } }.push .blend)) := by
  unfold scanArg
  rw [n1, n2, n3, n4, n5, h]

theorem scanArg_zoom (lib : CLib) (g : Globals) (t c : CStr)
    (n1 : strstr t "rows".toList = none)
    (n2 : strstr t "cols".toList = none)
    (n3 : strstr t "blur".toList = none)
    (n4 : strstr t "sharpen".toList = none)
    (n5 : strstr t "roll".toList = none)
    (n6 : strstr t "blend".toList = none)
    (h : strstr t "zoom".toList = some c) :
    scanArg lib g t = (valueAt c 5 >>= fun v =>
      pure ({ g with param := { g.param with zoom := lib.toFloat (lib.atof v) } }.push .zoom)) := by
  unfold scanArg
  rw [n1, n2, n3, n4, n5, n6, h]

theorem scanArg_crawl (lib : CLib) (g : Globals) (t c : CStr)
    (n1 : strstr t "rows".toList = none)
    (n2 : strstr t "cols".toList = none)
    (n3 : strstr t "blur".toList = none)
    (n4 : strstr t "sharpen".toList = none)
    (n5 : strstr t "roll".toList = none)
    (n6 : strstr t "blend".toList = none)
    (n7 : strstr t "zoom".toList = none)
    (h : strstr t "crawl".toList = some c) :
    scanArg lib g t = (valueAt c 6 >>= fun v =>
      match lib.sscanf4 v with
      | some (ds, dv, dsv, d) =>
        pure ({ g with param :=
          { g.param with crawlds := ds, crawldv := dv, crawldsv := dsv, crawld := d } }.push .crawl)
      | none => throw .crawlArgs) := by
  unfold scanArg
  rw [n1, n2, n3, n4, n5, n6, n7, h]

theorem scanArg_noise (lib : CLib) (g : Globals) (t c : CStr)
    (n1 : strstr t "rows".toList = none)
    (n2 : strstr t "cols".toList = none)
    (n3 : strstr t "blur".toList = none)
    (n4 : strstr t "sharpen".toList = none)
    (n5 : strstr t "roll".toList = none)
    (n6 : strstr t "blend".toList = none)
    (n7 : strstr t "zoom".toList = none)
    (n8 : strstr t "crawl".toList = none)
    (h : strstr t "noise".toList = some c) :
    scanArg lib g t = (valueAt c 6 >>= fun v =>
      match lib.sscanf2 v with
      | some (n, m) =>
        pure ({ g with param := { g.param with noise := n, mutate := m } }.push .noise)
      | none => throw .noiseArgs) := by
  unfold scanArg
  rw [n1, n2, n3, n4, n5, n6, n7, n8, h]

theorem scanArg_histeq (lib : CLib) (g : Globals) (t c : CStr)
    (n1 : strstr t "rows".toList = none)
    (n2 : strstr t "cols".toList = none)
    (n3 : strstr t "blur".toList = none)
    (n4 : strstr t "sharpen".toList = none)
    (n5 : strstr t "roll".toList = none)
    (n6 : strstr t "blend".toList = none)
    (n7 : strstr t "zoom".toList = none)
    (n8 : strstr t "crawl".toList = none)
    (n9 : strstr t "noise".toList = none)
    (h : strstr t "histeq".toList = some c) :
    scanArg lib g t = pure (g.push .histeq) := by
  unfold scanArg
  rw [n1, n2, n3, n4, n5, n6, n7, n8, n9, h]

theorem scanArg_invert (lib : CLib) (g : Globals) (t c : CStr)
    (n1 : strstr t "rows".toList = none)
    (n2 : strstr t "cols".toList = none)
    (n3 : strstr t "blur".toList = none)
    (n4 : strstr t "sharpen".toList = none)
    (n5 : strstr t "roll".toList = none)
    (n6 : strstr t "blend".toList = none)
    (n7 : strstr t "zoom".toList = none)
    (n8 : strstr t "crawl".toList = none)
    (n9 : strstr t "noise".toList = none)
    (n10 : strstr t "histeq".toList = none)
    (h : strstr t "invert".toList = some c) :
    scanArg lib g t = pure (g.push .invert) := by
  unfold scanArg
  rw [n1, n2, n3, n4, n5, n6, n7, n8, n9, n10, h]

theorem scanArg_depth (lib : CLib) (g : Globals) (t c : CStr)
    (n1 : strstr t "rows".toList = none)
    (n2 : strstr t "cols".toList = none)
    (n3 : strstr t "blur".toList = none)
    (n4 : strstr t "sharpen".toList = none)
    (n5 : strstr t "roll".toList = none)
    (n6 : strstr t "blend".toList = none)
    (n7 : strstr t "zoom".toList = none)
    (n8 : strstr t "crawl".toList = none)
    (n9 : strstr t "noise".toList = none)
    (n10 : strstr t "histeq".toList = none)
    (n11 : strstr t "invert".toList = none)
    (h : strstr t "depth".toList = some c) :
    scanArg lib g t = (valueAt c 6 >>= fun v => pure { g with param := { g.param with depth := lib.atoi v } }) := by
  unfold scanArg
  rw [n1, n2, n3, n4, n5, n6, n7, n8, n9, n10, n11, h]

theorem scanArg_seed (lib : CLib) (g : Globals) (t c : CStr)
    (n1 : strstr t "rows".toList = none)
    (n2 : strstr t "cols".toList = none)
    (n3 : strstr t "blur".toList = none)
    (n4 : strstr t "sharpen".toList = none)
    (n5 : strstr t "roll".toList = none)
    (n6 : strstr t "blend".toList = none)
    (n7 : strstr t "zoom".toList = none)
    (n8 : strstr t "crawl".toList = none)
    (n9 : strstr t "noise".toList = none)
    (n10 : strstr t "histeq".toList = none)
    (n11 : strstr t "invert".toList = none)
    (n12 : strstr t "depth".toList = none)
    (h : strstr t "seed".toList = some c) :
    scanArg lib g t = (valueAt c 5 >>= fun v => pure { g with param := { g.param with seed := lib.atoi v } }) := by
  unfold scanArg
  rw [n1, n2, n3, n4, n5, n6, n7, n8, n9, n10, n11, n12, h]

theorem scanArg_dump (lib : CLib) (g : Globals) (t c : CStr)
    (n1 : strstr t "rows".toList = none)
    (n2 : strstr t "cols".toList = none)
    (n3 : strstr t "blur".toList = none)
    (n4 : strstr t "sharpen".toList = none)
    (n5 : strstr t "roll".toList = none)
    (n6 : strstr t "blend".toList = none)
    (n7 : strstr t "zoom".toList = none)
    (n8 : strstr t "crawl".toList = none)
    (n9 : strstr t "noise".toList = none)
    (n10 : strstr t "histeq".toList = none)
    (n11 : strstr t "invert".toList = none)
    (n12 : strstr t "depth".toList = none)
    (n13 : strstr t "seed".toList = none)
    (h : strstr t "dump".toList = some c) :
    scanArg lib g t = (valueAt c 5 >>= fun v => pure { g with dumpdir := some v }) := by
  unfold scanArg
  rw [n1, n2, n3, n4, n5, n6, n7, n8, n9, n10, n11, n12, n13, h]

theorem scanArg_nframes (lib : CLib) (g : Globals) (t c : CStr)
    (n1 : strstr t "rows".toList = none)
    (n2 : strstr t "cols".toList = none)
    (n3 : strstr t "blur".toList = none)
    (n4 : strstr t "sharpen".toList = none)
    (n5 : strstr t "roll".toList = none)
    (n6 : strstr t "blend".toList = none)
    (n7 : strstr t "zoom".toList = none)
    (n8 : strstr t "crawl".toList = none)
    (n9 : strstr t "noise".toList = none)
    (n10 : strstr t "histeq".toList = none)
    (n11 : strstr t "invert".toList = none)
    (n12 : strstr t "depth".toList = none)
    (n13 : strstr t "seed".toList = none)
    (n14 : strstr t "dump".toList = none)
    (h : strstr t "nframes".toList = some c) :
    scanArg lib g t = (valueAt c 8 >>= fun v => pure { g with nframes := lib.atoi v }) := by
  unfold scanArg
  rw [n1, n2, n3, n4, n5, n6, n7, n8, n9, n10, n11, n12, n13, n14, h]

theorem scanArg_unknown (lib : CLib) (g : Globals) (t : CStr)
    (h : ∀ k ∈ keywords, strstr t k = none) :
    scanArg lib g t = .error (.unknownParameter t) := by
  unfold scanArg
  rw [h "rows".toList (by decide), h "cols".toList (by decide), h "blur".toList (by decide), h "sharpen".toList (by decide), h "roll".toList (by decide), h "blend".toList (by decide), h "zoom".toList (by decide), h "crawl".toList (by decide), h "noise".toList (by decide), h "histeq".toList (by decide), h "invert".toList (by decide), h "depth".toList (by decide), h "seed".toList (by decide), h "dump".toList (by decide), h "nframes".toList (by decide)]
  rfl

theorem valueAt_cases (c : CStr) (k : Nat) :
    (k ≤ c.length ∧ valueAt c k = .ok (c.drop k)) ∨
    (¬ k ≤ c.length ∧ valueAt c k = .error .undefinedRead) := by
  by_cases h : k ≤ c.length
  · exact Or.inl ⟨h, by simp [valueAt, ptrAdd, h]⟩
  · exact Or.inr ⟨h, by simp [valueAt, ptrAdd, h]⟩

/-- One pass of the scanning loop over a token with exactly one directive
keyword: when it succeeds it appends exactly the stage the token names, and
it succeeds when the value of the directive is well formed. -/
theorem scanArg_oneKeyword (lib : CLib) (g : Globals) (t : CStr) (h1 : OneKeyword t) :
    (∀ g1, scanArg lib g t = .ok g1 →
      g1.pipeline = g.pipeline ++ (namedStage lib t).toList) ∧
    (ValueOk lib t → ∃ g1, scanArg lib g t = .ok g1) := by
  obtain ⟨k, hk, hin, huniq⟩ := h1
  have hi : ∀ k2 ∈ keywords, k2 ≠ k → ¬ k2 <:+: t :=
    fun k2 hm hne hi => hne (huniq k2 hm hi)
  have hn : ∀ k2 ∈ keywords, k2 ≠ k → strstr t k2 = none :=
    fun k2 hm hne => (strstr_eq_none_iff t k2).2 (hi k2 hm hne)
  obtain ⟨c, hc⟩ := strstr_isSome_of_infix t k hin
  have hk2 : k = "rows".toList ∨ k = "cols".toList ∨ k = "blur".toList ∨ k = "sharpen".toList ∨
      k = "roll".toList ∨ k = "blend".toList ∨ k = "zoom".toList ∨ k = "crawl".toList ∨
      k = "noise".toList ∨ k = "histeq".toList ∨ k = "invert".toList ∨ k = "depth".toList ∨
      k = "seed".toList ∨ k = "dump".toList ∨ k = "nframes".toList := by
    simpa [keywords] using hk
  clear hk huniq
  rcases hk2 with rfl | rfl | rfl | rfl | rfl | rfl | rfl | rfl | rfl | rfl | rfl | rfl | rfl |
    rfl | rfl
  · have hs := scanArg_rows lib g t c  hc
    have hns : namedStage lib t = none := by
      unfold namedStage stageKeywords
      rw [List.find?_cons_of_neg _ (by simpa using hi _ (by decide) (by decide)), List.find?_cons_of_neg _ (by simpa using hi _ (by decide) (by decide)), List.find?_cons_of_neg _ (by simpa using hi _ (by decide) (by decide)), List.find?_cons_of_neg _ (by simpa using hi _ (by decide) (by decide)), List.find?_cons_of_neg _ (by simpa using hi _ (by decide) (by decide)), List.find?_cons_of_neg _ (by simpa using hi _ (by decide) (by decide)), List.find?_cons_of_neg _ (by simpa using hi _ (by decide) (by decide)), List.find?_cons_of_neg _ (by simpa using hi _ (by decide) (by decide)), List.find?_cons_of_neg _ (by simpa using hi _ (by decide) (by decide)), List.find?_nil]
    rw [hs, hns]
    constructor
    · intro g1 hg
      rcases valueAt_cases c 5 with ⟨_, hva⟩ | ⟨_, hva⟩
      · rw [hva] at hg
        injection hg with hg
        subst hg
        simp [Globals.push]
      · rw [hva] at hg
        cases hg
    · intro hvo
      have hlen := (hvo _ (by decide) hin).1 (by decide) (by decide)
      rw [hc] at hlen
      rcases valueAt_cases c 5 with ⟨_, hva⟩ | ⟨hbad, _⟩
      · rw [hva]
        exact ⟨_, rfl⟩
      · exact absurd hlen hbad
  · have hs := scanArg_cols lib g t c (hn _ (by decide) (by decide)) hc
    have hns : namedStage lib t = none := by
      unfold namedStage stageKeywords
      rw [List.find?_cons_of_neg _ (by simpa using hi _ (by decide) (by decide)), List.find?_cons_of_neg _ (by simpa using hi _ (by decide) (by decide)), List.find?_cons_of_neg _ (by simpa using hi _ (by decide) (by decide)), List.find?_cons_of_neg _ (by simpa using hi _ (by decide) (by decide)), List.find?_cons_of_neg _ (by simpa using hi _ (by decide) (by decide)), List.find?_cons_of_neg _ (by simpa using hi _ (by decide) (by decide)), List.find?_cons_of_neg _ (by simpa using hi _ (by decide) (by decide)), List.find?_cons_of_neg _ (by simpa using hi _ (by decide) (by decide)), List.find?_cons_of_neg _ (by simpa using hi _ (by decide) (by decide)), List.find?_nil]
    rw [hs, hns]
    constructor
    · intro g1 hg
      rcases valueAt_cases c 5 with ⟨_, hva⟩ | ⟨_, hva⟩
      · rw [hva] at hg
        injection hg with hg
        subst hg
        simp [Globals.push]
      · rw [hva] at hg
        cases hg
    · intro hvo
      have hlen := (hvo _ (by decide) hin).1 (by decide) (by decide)
      rw [hc] at hlen
      rcases valueAt_cases c 5 with ⟨_, hva⟩ | ⟨hbad, _⟩
      · rw [hva]
        exact ⟨_, rfl⟩
      · exact absurd hlen hbad
  · have hs := scanArg_blur lib g t c (hn _ (by decide) (by decide)) (hn _ (by decide) (by decide)) hc
    have hv : directiveValue "blur".toList t = c.drop 5 := by
      unfold directiveValue; rw [hc]; rfl
    have hns : namedStage lib t = if lib.atoi (c.drop 5) = 1 then none else some .blur := by
      unfold namedStage stageKeywords
      rw [List.find?_cons_of_pos _ (by simpa using hin), hv]
    rw [hs, hns]
    constructor
    · intro g1 hg
      rcases valueAt_cases c 5 with ⟨_, hva⟩ | ⟨_, hva⟩
      · rw [hva] at hg
        injection hg with hg
        subst hg
        by_cases hb : lib.atoi (c.drop 5) = 1 <;> simp [hb, Globals.push]
      · rw [hva] at hg
        cases hg
    · intro hvo
      have hlen := (hvo _ (by decide) hin).1 (by decide) (by decide)
      rw [hc] at hlen
      rcases valueAt_cases c 5 with ⟨_, hva⟩ | ⟨hbad, _⟩
      · rw [hva]
        exact ⟨_, rfl⟩
      · exact absurd hlen hbad
  · have hs := scanArg_sharpen lib g t c (hn _ (by decide) (by decide)) (hn _ (by decide) (by decide)) (hn _ (by decide) (by decide)) hc
    have hns : namedStage lib t = some .sharpen := by
      unfold namedStage stageKeywords
      rw [List.find?_cons_of_neg _ (by simpa using hi _ (by decide) (by decide)), List.find?_cons_of_pos _ (by simpa using hin)]
    rw [hs, hns]
    constructor
    · intro g1 hg
      rcases valueAt_cases c 8 with ⟨_, hva⟩ | ⟨_, hva⟩
      · rw [hva] at hg
        injection hg with hg
        subst hg
        simp [Globals.push]
      · rw [hva] at hg
        cases hg
    · intro hvo
      have hlen := (hvo _ (by decide) hin).1 (by decide) (by decide)
      rw [hc] at hlen
      rcases valueAt_cases c 8 with ⟨_, hva⟩ | ⟨hbad, _⟩
      · rw [hva]
        exact ⟨_, rfl⟩
      · exact absurd hlen hbad
  · have hs := scanArg_roll lib g t c (hn _ (by decide) (by decide)) (hn _ (by decide) (by decide)) (hn _ (by decide) (by decide)) (hn _ (by decide) (by decide)) hc
    have hns : namedStage lib t = some .roll := by
      unfold namedStage stageKeywords
      rw [List.find?_cons_of_neg _ (by simpa using hi _ (by decide) (by decide)), List.find?_cons_of_neg _ (by simpa using hi _ (by decide) (by decide)), List.find?_cons_of_pos _ (by simpa using hin)]
    rw [hs, hns]
    constructor
    · intro g1 hg
      rcases valueAt_cases c 5 with ⟨_, hva⟩ | ⟨_, hva⟩
      · rw [hva] at hg
        injection hg with hg
        subst hg
        simp [Globals.push]
      · rw [hva] at hg
        cases hg
    · intro hvo
      have hlen := (hvo _ (by decide) hin).1 (by decide) (by decide)
      rw [hc] at hlen
      rcases valueAt_cases c 5 with ⟨_, hva⟩ | ⟨hbad, _⟩
      · rw [hva]
        exact ⟨_, rfl⟩
      · exact absurd hlen hbad
  · have hs := scanArg_blend lib g t c (hn _ (by decide) (by decide)) (hn _ (by decide) (by decide)) (hn _ (by decide) (by decide)) (hn _ (by decide) (by decide)) (hn _ (by decide) (by decide)) hc
    have hns : namedStage lib t = some .blend := by
      unfold namedStage stageKeywords
      rw [List.find?_cons_of_neg _ (by simpa using hi _ (by decide) (by decide)), List.find?_cons_of_neg _ (by simpa using hi _ (by decide) (by decide)), List.find?_cons_of_neg _ (by simpa using hi _ (by decide) (by decide)), List.find?_cons_of_pos _ (by simpa using hin)]
    rw [hs, hns]
    constructor
    · intro g1 hg
      rcases valueAt_cases c 6 with ⟨_, hva⟩ | ⟨_, hva⟩
      · rw [hva] at hg
        injection hg with hg
        subst hg
        simp [Globals.push]
      · rw [hva] at hg
        cases hg
    · intro hvo
      have hlen := (hvo _ (by decide) hin).1 (by decide) (by decide)
      rw [hc] at hlen
      rcases valueAt_cases c 6 with ⟨_, hva⟩ | ⟨hbad, _⟩
      · rw [hva]
        exact ⟨_, rfl⟩
      · exact absurd hlen hbad
  · have hs := scanArg_zoom lib g t c (hn _ (by decide) (by decide)) (hn _ (by decide) (by decide)) (hn _ (by decide) (by decide)) (hn _ (by decide) (by decide)) (hn _ (by decide) (by decide)) (hn _ (by decide) (by decide)) hc
    have hns : namedStage lib t = some .zoom := by
      unfold namedStage stageKeywords
      rw [List.find?_cons_of_neg _ (by simpa using hi _ (by decide) (by decide)), List.find?_cons_of_neg _ (by simpa using hi _ (by decide) (by decide)), List.find?_cons_of_neg _ (by simpa using hi _ (by decide) (by decide)), List.find?_cons_of_neg _ (by simpa using hi _ (by decide) (by decide)), List.find?_cons_of_pos _ (by simpa using hin)]
    rw [hs, hns]
    constructor
    · intro g1 hg
      rcases valueAt_cases c 5 with ⟨_, hva⟩ | ⟨_, hva⟩
      · rw [hva] at hg
        injection hg with hg
        subst hg
        simp [Globals.push]
      · rw [hva] at hg
        cases hg
    · intro hvo
      have hlen := (hvo _ (by decide) hin).1 (by decide) (by decide)
      rw [hc] at hlen
      rcases valueAt_cases c 5 with ⟨_, hva⟩ | ⟨hbad, _⟩
      · rw [hva]
        exact ⟨_, rfl⟩
      · exact absurd hlen hbad
  · have hs := scanArg_crawl lib g t c (hn _ (by decide) (by decide)) (hn _ (by decide) (by decide)) (hn _ (by decide) (by decide)) (hn _ (by decide) (by decide)) (hn _ (by decide) (by decide)) (hn _ (by decide) (by decide)) (hn _ (by decide) (by decide)) hc
    have hns : namedStage lib t = some .crawl := by
      unfold namedStage stageKeywords
      rw [List.find?_cons_of_neg _ (by simpa using hi _ (by decide) (by decide)), List.find?_cons_of_neg _ (by simpa using hi _ (by decide) (by decide)), List.find?_cons_of_neg _ (by simpa using hi _ (by decide) (by decide)), List.find?_cons_of_neg _ (by simpa using hi _ (by decide) (by decide)), List.find?_cons_of_neg _ (by simpa using hi _ (by decide) (by decide)), List.find?_cons_of_pos _ (by simpa using hin)]
    rw [hs, hns]
    constructor
    · intro g1 hg
      rcases valueAt_cases c 6 with ⟨_, hva⟩ | ⟨_, hva⟩
      · rw [hva] at hg
        rcases hss : lib.sscanf4 (c.drop 6) with _ | ⟨ds, dv, dsv, d⟩
        · simp only [bind, Except.bind, hss] at hg
          cases hg
        · simp only [bind, Except.bind, hss] at hg
          injection hg with hg
          subst hg
          simp [Globals.push]
      · rw [hva] at hg
        cases hg
    · intro hvo
      have hlen := (hvo _ (by decide) hin).1 (by decide) (by decide)
      rw [hc] at hlen
      rcases valueAt_cases c 6 with ⟨_, hva⟩ | ⟨hbad, _⟩
      · have hsome := (hvo _ (by decide) hin).2.1 rfl
        have hv : directiveValue "crawl".toList t = c.drop 6 := by
          unfold directiveValue; rw [hc]; rfl
        rw [hv] at hsome
        obtain ⟨⟨ds, dv, dsv, d⟩, hx⟩ := Option.isSome_iff_exists.1 hsome
        rw [hva]
        simp only [bind, Except.bind, hx]
        exact ⟨_, rfl⟩
      · exact absurd hlen hbad
  · have hs := scanArg_noise lib g t c (hn _ (by decide) (by decide)) (hn _ (by decide) (by decide)) (hn _ (by decide) (by decide)) (hn _ (by decide) (by decide)) (hn _ (by decide) (by decide)) (hn _ (by decide) (by decide)) (hn _ (by decide) (by decide)) (hn _ (by decide) (by decide)) hc
    have hns : namedStage lib t = some .noise := by
      unfold namedStage stageKeywords
      rw [List.find?_cons_of_neg _ (by simpa using hi _ (by decide) (by decide)), List.find?_cons_of_neg _ (by simpa using hi _ (by decide) (by decide)), List.find?_cons_of_neg _ (by simpa using hi _ (by decide) (by decide)), List.find?_cons_of_neg _ (by simpa using hi _ (by decide) (by decide)), List.find?_cons_of_neg _ (by simpa using hi _ (by decide) (by decide)), List.find?_cons_of_neg _ (by simpa using hi _ (by decide) (by decide)), List.find?_cons_of_pos _ (by simpa using hin)]
    rw [hs, hns]
    constructor
    · intro g1 hg
      rcases valueAt_cases c 6 with ⟨_, hva⟩ | ⟨_, hva⟩
      · rw [hva] at hg
        rcases hss : lib.sscanf2 (c.drop 6) with _ | ⟨n, m⟩
        · simp only [bind, Except.bind, hss] at hg
          cases hg
        · simp only [bind, Except.bind, hss] at hg
          injection hg with hg
          subst hg
          simp [Globals.push]
      · rw [hva] at hg
        cases hg
    · intro hvo
      have hlen := (hvo _ (by decide) hin).1 (by decide) (by decide)
      rw [hc] at hlen
      rcases valueAt_cases c 6 with ⟨_, hva⟩ | ⟨hbad, _⟩
      · have hsome := (hvo _ (by decide) hin).2.2 rfl
        have hv : directiveValue "noise".toList t = c.drop 6 := by
          unfold directiveValue; rw [hc]; rfl
        rw [hv] at hsome
        obtain ⟨⟨n, m⟩, hx⟩ := Option.isSome_iff_exists.1 hsome
        rw [hva]
        simp only [bind, Except.bind, hx]
        exact ⟨_, rfl⟩
      · exact absurd hlen hbad
  · have hs := scanArg_histeq lib g t c (hn _ (by decide) (by decide)) (hn _ (by decide) (by decide)) (hn _ (by decide) (by decide)) (hn _ (by decide) (by decide)) (hn _ (by decide) (by decide)) (hn _ (by decide) (by decide)) (hn _ (by decide) (by decide)) (hn _ (by decide) (by decide)) (hn _ (by decide) (by decide)) hc
    have hns : namedStage lib t = some .histeq := by
      unfold namedStage stageKeywords
      rw [List.find?_cons_of_neg _ (by simpa using hi _ (by decide) (by decide)), List.find?_cons_of_neg _ (by simpa using hi _ (by decide) (by decide)), List.find?_cons_of_neg _ (by simpa using hi _ (by decide) (by decide)), List.find?_cons_of_neg _ (by simpa using hi _ (by decide) (by decide)), List.find?_cons_of_neg _ (by simpa using hi _ (by decide) (by decide)), List.find?_cons_of_neg _ (by simpa using hi _ (by decide) (by decide)), List.find?_cons_of_neg _ (by simpa using hi _ (by decide) (by decide)), List.find?_cons_of_pos _ (by simpa using hin)]
    rw [hs, hns]
    constructor
    · intro g1 hg
      injection hg with hg
      subst hg
      simp [Globals.push]
    · intro _
      exact ⟨_, rfl⟩
  · have hs := scanArg_invert lib g t c (hn _ (by decide) (by decide)) (hn _ (by decide) (by decide)) (hn _ (by decide) (by decide)) (hn _ (by decide) (by decide)) (hn _ (by decide) (by decide)) (hn _ (by decide) (by decide)) (hn _ (by decide) (by decide)) (hn _ (by decide) (by decide)) (hn _ (by decide) (by decide)) (hn _ (by decide) (by decide)) hc
    have hns : namedStage lib t = some .invert := by
      unfold namedStage stageKeywords
      rw [List.find?_cons_of_neg _ (by simpa using hi _ (by decide) (by decide)), List.find?_cons_of_neg _ (by simpa using hi _ (by decide) (by decide)), List.find?_cons_of_neg _ (by simpa using hi _ (by decide) (by decide)), List.find?_cons_of_neg _ (by simpa using hi _ (by decide) (by decide)), List.find?_cons_of_neg _ (by simpa using hi _ (by decide) (by decide)), List.find?_cons_of_neg _ (by simpa using hi _ (by decide) (by decide)), List.find?_cons_of_neg _ (by simpa using hi _ (by decide) (by decide)), List.find?_cons_of_neg _ (by simpa using hi _ (by decide) (by decide)), List.find?_cons_of_pos _ (by simpa using hin)]
    rw [hs, hns]
    constructor
    · intro g1 hg
      injection hg with hg
      subst hg
      simp [Globals.push]
    · intro _
      exact ⟨_, rfl⟩
  · have hs := scanArg_depth lib g t c (hn _ (by decide) (by decide)) (hn _ (by decide) (by decide)) (hn _ (by decide) (by decide)) (hn _ (by decide) (by decide)) (hn _ (by decide) (by decide)) (hn _ (by decide) (by decide)) (hn _ (by decide) (by decide)) (hn _ (by decide) (by decide)) (hn _ (by decide) (by decide)) (hn _ (by decide) (by decide)) (hn _ (by decide) (by decide)) hc
    have hns : namedStage lib t = none := by
      unfold namedStage stageKeywords
      rw [List.find?_cons_of_neg _ (by simpa using hi _ (by decide) (by decide)), List.find?_cons_of_neg _ (by simpa using hi _ (by decide) (by decide)), List.find?_cons_of_neg _ (by simpa using hi _ (by decide) (by decide)), List.find?_cons_of_neg _ (by simpa using hi _ (by decide) (by decide)), List.find?_cons_of_neg _ (by simpa using hi _ (by decide) (by decide)), List.find?_cons_of_neg _ (by simpa using hi _ (by decide) (by decide)), List.find?_cons_of_neg _ (by simpa using hi _ (by decide) (by decide)), List.find?_cons_of_neg _ (by simpa using hi _ (by decide) (by decide)), List.find?_cons_of_neg _ (by simpa using hi _ (by decide) (by decide)), List.find?_nil]
    rw [hs, hns]
    constructor
    · intro g1 hg
      rcases valueAt_cases c 6 with ⟨_, hva⟩ | ⟨_, hva⟩
      · rw [hva] at hg
        injection hg with hg
        subst hg
        simp [Globals.push]
      · rw [hva] at hg
        cases hg
    · intro hvo
      have hlen := (hvo _ (by decide) hin).1 (by decide) (by decide)
      rw [hc] at hlen
      rcases valueAt_cases c 6 with ⟨_, hva⟩ | ⟨hbad, _⟩
      · rw [hva]
        exact ⟨_, rfl⟩
      · exact absurd hlen hbad
  · have hs := scanArg_seed lib g t c (hn _ (by decide) (by decide)) (hn _ (by decide) (by decide)) (hn _ (by decide) (by decide)) (hn _ (by decide) (by decide)) (hn _ (by decide) (by decide)) (hn _ (by decide) (by decide)) (hn _ (by decide) (by decide)) (hn _ (by decide) (by decide)) (hn _ (by decide) (by decide)) (hn _ (by decide) (by decide)) (hn _ (by decide) (by decide)) (hn _ (by decide) (by decide)) hc
    have hns : namedStage lib t = none := by
      unfold namedStage stageKeywords
      rw [List.find?_cons_of_neg _ (by simpa using hi _ (by decide) (by decide)), List.find?_cons_of_neg _ (by simpa using hi _ (by decide) (by decide)), List.find?_cons_of_neg _ (by simpa using hi _ (by decide) (by decide)), List.find?_cons_of_neg _ (by simpa using hi _ (by decide) (by decide)), List.find?_cons_of_neg _ (by simpa using hi _ (by decide) (by decide)), List.find?_cons_of_neg _ (by simpa using hi _ (by decide) (by decide)), List.find?_cons_of_neg _ (by simpa using hi _ (by decide) (by decide)), List.find?_cons_of_neg _ (by simpa using hi _ (by decide) (by decide)), List.find?_cons_of_neg _ (by simpa using hi _ (by decide) (by decide)), List.find?_nil]
    rw [hs, hns]
    constructor
    · intro g1 hg
      rcases valueAt_cases c 5 with ⟨_, hva⟩ | ⟨_, hva⟩
      · rw [hva] at hg
        injection hg with hg
        subst hg
        simp [Globals.push]
      · rw [hva] at hg
        cases hg
    · intro hvo
      have hlen := (hvo _ (by decide) hin).1 (by decide) (by decide)
      rw [hc] at hlen
      rcases valueAt_cases c 5 with ⟨_, hva⟩ | ⟨hbad, _⟩
      · rw [hva]
        exact ⟨_, rfl⟩
      · exact absurd hlen hbad
  · have hs := scanArg_dump lib g t c (hn _ (by decide) (by decide)) (hn _ (by decide) (by decide)) (hn _ (by decide) (by decide)) (hn _ (by decide) (by decide)) (hn _ (by decide) (by decide)) (hn _ (by decide) (by decide)) (hn _ (by decide) (by decide)) (hn _ (by decide) (by decide)) (hn _ (by decide) (by decide)) (hn _ (by decide) (by decide)) (hn _ (by decide) (by decide)) (hn _ (by decide) (by decide)) (hn _ (by decide) (by decide)) hc
    have hns : namedStage lib t = none := by
      unfold namedStage stageKeywords
      rw [List.find?_cons_of_neg _ (by simpa using hi _ (by decide) (by decide)), List.find?_cons_of_neg _ (by simpa using hi _ (by decide) (by decide)), List.find?_cons_of_neg _ (by simpa using hi _ (by decide) (by decide)), List.find?_cons_of_neg _ (by simpa using hi _ (by decide) (by decide)), List.find?_cons_of_neg _ (by simpa using hi _ (by decide) (by decide)), List.find?_cons_of_neg _ (by simpa using hi _ (by decide) (by decide)), List.find?_cons_of_neg _ (by simpa using hi _ (by decide) (by decide)), List.find?_cons_of_neg _ (by simpa using hi _ (by decide) (by decide)), List.find?_cons_of_neg _ (by simpa using hi _ (by decide) (by decide)), List.find?_nil]
    rw [hs, hns]
    constructor
    · intro g1 hg
      rcases valueAt_cases c 5 with ⟨_, hva⟩ | ⟨_, hva⟩
      · rw [hva] at hg
        injection hg with hg
        subst hg
        simp [Globals.push]
      · rw [hva] at hg
        cases hg
    · intro hvo
      have hlen := (hvo _ (by decide) hin).1 (by decide) (by decide)
      rw [hc] at hlen
      rcases valueAt_cases c 5 with ⟨_, hva⟩ | ⟨hbad, _⟩
      · rw [hva]
        exact ⟨_, rfl⟩
      · exact absurd hlen hbad
  · have hs := scanArg_nframes lib g t c (hn _ (by decide) (by decide)) (hn _ (by decide) (by decide)) (hn _ (by decide) (by decide)) (hn _ (by decide) (by decide)) (hn _ (by decide) (by decide)) (hn _ (by decide) (by decide)) (hn _ (by decide) (by decide)) (hn _ (by decide) (by decide)) (hn _ (by decide) (by decide)) (hn _ (by decide) (by decide)) (hn _ (by decide) (by decide)) (hn _ (by decide) (by decide)) (hn _ (by decide) (by decide)) (hn _ (by decide) (by decide)) hc
    have hns : namedStage lib t = none := by
      unfold namedStage stageKeywords
      rw [List.find?_cons_of_neg _ (by simpa using hi _ (by decide) (by decide)), List.find?_cons_of_neg _ (by simpa using hi _ (by decide) (by decide)), List.find?_cons_of_neg _ (by simpa using hi _ (by decide) (by decide)), List.find?_cons_of_neg _ (by simpa using hi _ (by decide) (by decide)), List.find?_cons_of_neg _ (by simpa using hi _ (by decide) (by decide)), List.find?_cons_of_neg _ (by simpa using hi _ (by decide) (by decide)), List.find?_cons_of_neg _ (by simpa using hi _ (by decide) (by decide)), List.find?_cons_of_neg _ (by simpa using hi _ (by decide) (by decide)), List.find?_cons_of_neg _ (by simpa using hi _ (by decide) (by decide)), List.find?_nil]
    rw [hs, hns]
    constructor
    · intro g1 hg
      rcases valueAt_cases c 8 with ⟨_, hva⟩ | ⟨_, hva⟩
      · rw [hva] at hg
        injection hg with hg
        subst hg
        simp [Globals.push]
      · rw [hva] at hg
        cases hg
    · intro hvo
      have hlen := (hvo _ (by decide) hin).1 (by decide) (by decide)
      rw [hc] at hlen
      rcases valueAt_cases c 8 with ⟨_, hva⟩ | ⟨hbad, _⟩
      · rw [hva]
        exact ⟨_, rfl⟩
      · exact absurd hlen hbad


theorem expectedPipeline_cons (lib : CLib) (t : CStr) (rest : List CStr) :
    expectedPipeline lib (t :: rest) = (namedStage lib t).toList ++ expectedPipeline lib rest := by
  unfold expectedPipeline
  cases h : namedStage lib t <;> simp [List.filterMap_cons, h]

theorem scanLoop_cons (lib : CLib) (t : CStr) (rest : List CStr) (g g1 : Globals)
    (h : scanArg lib g t = .ok g1) :
    scanLoop lib (t :: rest) g =
      if g1.npipe ≥ MAXPIPE then .error .tooManyOperations else scanLoop lib rest g1 := by
  show (scanArg lib g t >>= fun g1 => checkCapacity g1 >>= fun g2 => scanLoop lib rest g2) = _
  rw [h]
  show (checkCapacity g1 >>= fun g2 => scanLoop lib rest g2) = _
  unfold checkCapacity
  by_cases hc : g1.npipe ≥ MAXPIPE
  · rw [if_pos hc, if_pos hc]
    rfl
  · rw [if_neg hc, if_neg hc]
    rfl

theorem scanLoop_cons_error (lib : CLib) (t : CStr) (rest : List CStr) (g : Globals) (e : Fatal)
    (h : scanArg lib g t = .error e) : scanLoop lib (t :: rest) g = .error e := by
  show (scanArg lib g t >>= fun g1 => checkCapacity g1 >>= fun g2 => scanLoop lib rest g2) = _
  rw [h]
  rfl

/-- The scanning loop over tokens with exactly one keyword each: a successful
scan has appended the stages the tokens name, in order. -/
theorem scanLoop_pipeline (lib : CLib) (tokens : List CStr)
    (hwf : ∀ t ∈ tokens, OneKeyword t) :
    ∀ g g2, scanLoop lib tokens g = .ok g2 →
      g2.pipeline = g.pipeline ++ expectedPipeline lib tokens := by
  induction tokens with
  | nil =>
    intro g g2 h
    injection h with h
    subst h
    simp [expectedPipeline]
  | cons t rest ih =>
    intro g g2 h
    have ht := scanArg_oneKeyword lib g t (hwf t (List.mem_cons_self _ _))
    rcases hs : scanArg lib g t with e | g1
    · rw [scanLoop_cons_error lib t rest g e hs] at h
      cases h
    · rw [scanLoop_cons lib t rest g g1 hs] at h
      by_cases hc : g1.npipe ≥ MAXPIPE
      · rw [if_pos hc] at h
        cases h
      · rw [if_neg hc] at h
        rw [ih (fun t2 h2 => hwf t2 (List.mem_cons_of_mem _ h2)) g1 g2 h, ht.1 g1 hs,
          expectedPipeline_cons, List.append_assoc]

/-- The scanning loop succeeds on tokens with exactly one keyword and a well
formed value each, as long as the pipeline stays below its capacity. -/
theorem scanLoop_succeeds (lib : CLib) (tokens : List CStr)
    (hwf : ∀ t ∈ tokens, OneKeyword t) (hv : ∀ t ∈ tokens, ValueOk lib t) :
    ∀ g, g.pipeline.length + (expectedPipeline lib tokens).length < MAXPIPE →
      ∃ g2, scanLoop lib tokens g = .ok g2 := by
  induction tokens with
  | nil =>
    intro g _
    exact ⟨g, rfl⟩
  | cons t rest ih =>
    intro g hcap
    have ht := scanArg_oneKeyword lib g t (hwf t (List.mem_cons_self _ _))
    obtain ⟨g1, hs⟩ := ht.2 (hv t (List.mem_cons_self _ _))
    have hp := ht.1 g1 hs
    rw [expectedPipeline_cons, List.length_append] at hcap
    have hlen : g1.pipeline.length = g.pipeline.length + (namedStage lib t).toList.length := by
      rw [hp, List.length_append]
    rw [scanLoop_cons lib t rest g g1 hs]
    have hc : ¬ g1.npipe ≥ MAXPIPE := by
      unfold Globals.npipe
      omega
    rw [if_neg hc]
    exact ih (fun t2 h2 => hwf t2 (List.mem_cons_of_mem _ h2))
      (fun t2 h2 => hv t2 (List.mem_cons_of_mem _ h2)) g1 (by omega)

/-- C2: the pipeline built by `scanargs`.  For every list of tokens that each
contain exactly one directive keyword and that name fewer stages than
`MAXPIPE`, a run of `scanargs` that returns has built exactly the pipeline of
the specification: the transforms named by the stage-producing tokens, one
per token and in token order, nothing for the non-stage directives and
nothing for a blur token of size 1.  The scanning loop does return, with
that pipeline, whenever the directive values are well formed (then only the
final range check can still reject the configuration). -/
theorem pipeline_follows_tokens (lib : CLib) (prog : CStr) (tokens : List CStr)
    (hwf : ∀ t ∈ tokens, OneKeyword t)
    (hcap : (expectedPipeline lib tokens).length < MAXPIPE) :
    (∀ g, scanargs lib (prog :: tokens) defaultGlobals = .ok g →
      g.pipeline = expectedPipeline lib tokens) ∧
    ((∀ t ∈ tokens, ValueOk lib t) →
      ∃ g, scanLoop lib tokens defaultGlobals = .ok g ∧
        g.pipeline = expectedPipeline lib tokens ∧
        scanargs lib (prog :: tokens) defaultGlobals = sanityCheck g) := by
  constructor
  · intro g h
    rcases hl : scanLoop lib tokens defaultGlobals with e | g1
    · have : scanargs lib (prog :: tokens) defaultGlobals = .error e := by
        show (scanLoop lib tokens defaultGlobals >>= sanityCheck) = _
        rw [hl]
        rfl
      rw [this] at h
      cases h
    · have hp := scanLoop_pipeline lib tokens hwf defaultGlobals g1 hl
      rw [scanargs_eq lib (prog :: tokens) defaultGlobals g1 hl] at h
      rcases sanityCheck_ok_or_error g1 with hok | ⟨e, he⟩
      · rw [hok] at h
        injection h with h
        subst h
        simpa [defaultGlobals, startGlobals] using hp
      · rw [he] at h
        cases h
  · intro hv
    obtain ⟨g, hg⟩ := scanLoop_succeeds lib tokens hwf hv defaultGlobals
      (by simpa [defaultGlobals, startGlobals] using hcap)
    refine ⟨g, hg, ?_, scanargs_eq lib (prog :: tokens) defaultGlobals g hg⟩
    simpa [defaultGlobals, startGlobals] using
      scanLoop_pipeline lib tokens hwf defaultGlobals g hg

/-- Witness for C2: the sample command line, whose six tokens have one keyword
each; the scanner builds the pipeline invert, roll, invert, blur from it. -/
theorem pipeline_follows_tokens_witness :
    (∀ t ∈ sampleTokens, OneKeyword t) ∧
    expectedPipeline decLib sampleTokens = [.invert, .roll, .invert, .blur] ∧
    (∃ g, scanLoop decLib sampleTokens defaultGlobals = .ok g ∧
        g.pipeline = expectedPipeline decLib sampleTokens ∧
        scanargs decLib ("fb".toList :: sampleTokens) defaultGlobals = sanityCheck g) :=
  ⟨by decide, by decide,
    (pipeline_follows_tokens decLib "fb".toList sampleTokens (by decide) (by decide)).2
      (by decide)⟩

/-! ### The dump directive -/

theorem not_infix_dump_token (k p : CStr) (hk : k ∈ keywordsBeforeDump) (h : ¬ k <:+: p) :
    ¬ k <:+: "--dump=".toList ++ p := by
  have e : "--dump=".toList ++ p = '-' :: '-' :: 'd' :: 'u' :: 'm' :: 'p' :: '=' :: p := rfl
  rw [e]
  have hk2 : k = "rows".toList ∨ k = "cols".toList ∨ k = "blur".toList ∨ k = "sharpen".toList ∨
      k = "roll".toList ∨ k = "blend".toList ∨ k = "zoom".toList ∨ k = "crawl".toList ∨
      k = "noise".toList ∨ k = "histeq".toList ∨ k = "invert".toList ∨ k = "depth".toList ∨
      k = "seed".toList := by
    simpa [keywordsBeforeDump] using hk
  rcases hk2 with rfl | rfl | rfl | rfl | rfl | rfl | rfl | rfl | rfl | rfl | rfl | rfl | rfl <;>
    simpa [List.infix_cons_iff, List.cons_prefix_cons] using h

theorem sanityCheck_dump_defaults (p : CStr) :
    sanityCheck { defaultGlobals with dumpdir := some p } =
      .ok { defaultGlobals with dumpdir := some p } := by
  rw [sanityCheck_ok_iff]
  simp only [defaultGlobals, startGlobals, defaultParam, Flt.half, Flt.zero_eq, Flt.one_eq,
    Flt.two_eq, Flt.fin_lt_fin, GT.gt]
  refine ⟨⟨by decide, by decide⟩, ?_, ?_, ?_, ?_, ?_⟩ <;> norm_num

theorem sanityCheck_defaults : sanityCheck defaultGlobals = .ok defaultGlobals := by
  rw [sanityCheck_ok_iff]
  simp only [defaultGlobals, startGlobals, defaultParam, Flt.half, Flt.zero_eq, Flt.one_eq,
    Flt.two_eq, Flt.fin_lt_fin, GT.gt]
  refine ⟨⟨by decide, by decide⟩, ?_, ?_, ?_, ?_, ?_⟩ <;> norm_num

/-- C9, counterexample: the path `/tmp/seeds` contains the keyword `seed`, which
the chain tests before `dump`.  Scanning `--dump=/tmp/seeds` succeeds, but it
is the seed that is assigned (from the empty string behind `seeds`): the
globals are the defaults, and file-dump mode is not enabled. -/
theorem dump_directive_counterexample :
    scanargs decLib ["fb".toList, "--dump=/tmp/seeds".toList] defaultGlobals
      = .ok defaultGlobals ∧
    defaultGlobals.dumpdir = none ∧
    scanargs decLib ["fb".toList, "--dump=/tmp/seeds".toList] defaultGlobals
      ≠ .ok { defaultGlobals with dumpdir := some "/tmp/seeds".toList } := by
  have h : scanargs decLib ["fb".toList, "--dump=/tmp/seeds".toList] defaultGlobals
      = .ok defaultGlobals := by
    rw [scanargs_eq decLib ["fb".toList, "--dump=/tmp/seeds".toList] defaultGlobals
      defaultGlobals rfl]
    exact sanityCheck_defaults
  refine ⟨h, rfl, ?_⟩
  rw [h]
  intro hc
  injection hc with hc
  have hd := congrArg Globals.dumpdir hc
  exact absurd hd (by decide)

/-- C9, amended: for every path `p` that contains none of the keywords the
chain tests before `dump` (rows, cols, blur, sharpen, roll, blend, zoom,
crawl, noise, histeq, invert, depth, seed), scanning the single token
`--dump=p` with all else at the defaults succeeds, enables file-dump mode
with the output directory exactly `p`, adds no pipeline stage and changes
nothing else. -/
theorem dump_directive (lib : CLib) (prog p : CStr)
    (h : ∀ k ∈ keywordsBeforeDump, ¬ k <:+: p) :
    scanargs lib [prog, "--dump=".toList ++ p] defaultGlobals =
      .ok { defaultGlobals with dumpdir := some p } := by
  have hn : ∀ k ∈ keywordsBeforeDump, strstr ("--dump=".toList ++ p) k = none :=
    fun k hk => (strstr_eq_none_iff _ k).2 (not_infix_dump_token k p hk (h k hk))
  have hc : strstr ("--dump=".toList ++ p) "dump".toList = some ("dump=".toList ++ p) := rfl
  have hs := scanArg_dump lib defaultGlobals ("--dump=".toList ++ p) ("dump=".toList ++ p)
    (hn _ (by decide)) (hn _ (by decide)) (hn _ (by decide)) (hn _ (by decide))
    (hn _ (by decide)) (hn _ (by decide)) (hn _ (by decide)) (hn _ (by decide))
    (hn _ (by decide)) (hn _ (by decide)) (hn _ (by decide)) (hn _ (by decide))
    (hn _ (by decide)) hc
  have hv : valueAt ("dump=".toList ++ p) 5 = .ok p :=
    valueAt_ok ("dump=".toList ++ p) 5 (by simp)
  rw [hv] at hs
  have hl : scanLoop lib ([prog, "--dump=".toList ++ p].drop 1) defaultGlobals =
      .ok { defaultGlobals with dumpdir := some p } := by
    show scanLoop lib ["--dump=".toList ++ p] defaultGlobals = _
    rw [scanLoop_cons lib _ [] defaultGlobals { defaultGlobals with dumpdir := some p } hs,
      if_neg (by simp [Globals.npipe, defaultGlobals, startGlobals, MAXPIPE])]
    rfl
  rw [scanargs_eq lib _ defaultGlobals _ hl]
  exact sanityCheck_dump_defaults p

/-- Witness for the amended C9: the path `/tmp/out`. -/
theorem dump_directive_witness :
    (∀ k ∈ keywordsBeforeDump, ¬ k <:+: "/tmp/out".toList) ∧
    scanargs decLib ["fb".toList, "--dump=/tmp/out".toList] defaultGlobals =
      .ok { defaultGlobals with dumpdir := some "/tmp/out".toList } :=
  ⟨by decide, dump_directive decLib "fb".toList "/tmp/out".toList (by decide)⟩

/-- A pass of the scanning loop over a token that contains one of the keywords
tested before `dump` does not assign `dumpdir`. -/
theorem scanArg_keeps_dumpdir (lib : CLib) (g g1 : Globals) (t : CStr)
    (hex : ∃ k ∈ keywordsBeforeDump, k <:+: t) (h : scanArg lib g t = .ok g1) :
    g1.dumpdir = g.dumpdir := by
  rcases h1 : strstr t "rows".toList with _ | c
  swap
  · rw [scanArg_rows lib g t c h1] at h
    rcases valueAt_cases c 5 with ⟨_, hva⟩ | ⟨_, hva⟩
    · rw [hva] at h
      injection h with h
      subst h
      rfl
    · rw [hva] at h
      cases h
  rcases h2 : strstr t "cols".toList with _ | c
  swap
  · rw [scanArg_cols lib g t c h1 h2] at h
    rcases valueAt_cases c 5 with ⟨_, hva⟩ | ⟨_, hva⟩
    · rw [hva] at h
      injection h with h
      subst h
      rfl
    · rw [hva] at h
      cases h
  rcases h3 : strstr t "blur".toList with _ | c
  swap
  · rw [scanArg_blur lib g t c h1 h2 h3] at h
    rcases valueAt_cases c 5 with ⟨_, hva⟩ | ⟨_, hva⟩
    · rw [hva] at h
      injection h with h
      subst h
      by_cases hb : lib.atoi (c.drop 5) = 1 <;> simp [hb, Globals.push]
    · rw [hva] at h
      cases h
  rcases h4 : strstr t "sharpen".toList with _ | c
  swap
  · rw [scanArg_sharpen lib g t c h1 h2 h3 h4] at h
    rcases valueAt_cases c 8 with ⟨_, hva⟩ | ⟨_, hva⟩
    · rw [hva] at h
      injection h with h
      subst h
      rfl
    · rw [hva] at h
      cases h
  rcases h5 : strstr t "roll".toList with _ | c
  swap
  · rw [scanArg_roll lib g t c h1 h2 h3 h4 h5] at h
    rcases valueAt_cases c 5 with ⟨_, hva⟩ | ⟨_, hva⟩
    · rw [hva] at h
      injection h with h
      subst h
      rfl
    · rw [hva] at h
      cases h
  rcases h6 : strstr t "blend".toList with _ | c
  swap
  · rw [scanArg_blend lib g t c h1 h2 h3 h4 h5 h6] at h
    rcases valueAt_cases c 6 with ⟨_, hva⟩ | ⟨_, hva⟩
    · rw [hva] at h
      injection h with h
      subst h
      rfl
    · rw [hva] at h
      cases h
  rcases h7 : strstr t "zoom".toList with _ | c
  swap
  · rw [scanArg_zoom lib g t c h1 h2 h3 h4 h5 h6 h7] at h
    rcases valueAt_cases c 5 with ⟨_, hva⟩ | ⟨_, hva⟩
    · rw [hva] at h
      injection h with h
      subst h
      rfl
    · rw [hva] at h
      cases h
  rcases h8 : strstr t "crawl".toList with _ | c
  swap
  · rw [scanArg_crawl lib g t c h1 h2 h3 h4 h5 h6 h7 h8] at h
    rcases valueAt_cases c 6 with ⟨_, hva⟩ | ⟨_, hva⟩
    · rw [hva] at h
      rcases hss : lib.sscanf4 (c.drop 6) with _ | ⟨ds, dv, dsv, d⟩
      · simp only [bind, Except.bind, hss] at h
        cases h
      · simp only [bind, Except.bind, hss] at h
        injection h with h
        subst h
        rfl
    · rw [hva] at h
      cases h
  rcases h9 : strstr t "noise".toList with _ | c
  swap
  · rw [scanArg_noise lib g t c h1 h2 h3 h4 h5 h6 h7 h8 h9] at h
    rcases valueAt_cases c 6 with ⟨_, hva⟩ | ⟨_, hva⟩
    · rw [hva] at h
      rcases hss : lib.sscanf2 (c.drop 6) with _ | ⟨n, m⟩
      · simp only [bind, Except.bind, hss] at h
        cases h
      · simp only [bind, Except.bind, hss] at h
        injection h with h
        subst h
        rfl
    · rw [hva] at h
      cases h
  rcases h10 : strstr t "histeq".toList with _ | c
  swap
  · rw [scanArg_histeq lib g t c h1 h2 h3 h4 h5 h6 h7 h8 h9 h10] at h
    injection h with h
    subst h
    rfl
  rcases h11 : strstr t "invert".toList with _ | c
  swap
  · rw [scanArg_invert lib g t c h1 h2 h3 h4 h5 h6 h7 h8 h9 h10 h11] at h
    injection h with h
    subst h
    rfl
  rcases h12 : strstr t "depth".toList with _ | c
  swap
  · rw [scanArg_depth lib g t c h1 h2 h3 h4 h5 h6 h7 h8 h9 h10 h11 h12] at h
    rcases valueAt_cases c 6 with ⟨_, hva⟩ | ⟨_, hva⟩
    · rw [hva] at h
      injection h with h
      subst h
      rfl
    · rw [hva] at h
      cases h
  rcases h13 : strstr t "seed".toList with _ | c
  swap
  · rw [scanArg_seed lib g t c h1 h2 h3 h4 h5 h6 h7 h8 h9 h10 h11 h12 h13] at h
    rcases valueAt_cases c 5 with ⟨_, hva⟩ | ⟨_, hva⟩
    · rw [hva] at h
      injection h with h
      subst h
      rfl
    · rw [hva] at h
      cases h
  obtain ⟨k, hk, hin⟩ := hex
  have hk2 : k = "rows".toList ∨ k = "cols".toList ∨ k = "blur".toList ∨ k = "sharpen".toList ∨
      k = "roll".toList ∨ k = "blend".toList ∨ k = "zoom".toList ∨ k = "crawl".toList ∨
      k = "noise".toList ∨ k = "histeq".toList ∨ k = "invert".toList ∨ k = "depth".toList ∨
      k = "seed".toList := by
    simpa [keywordsBeforeDump] using hk
  rcases hk2 with rfl | rfl | rfl | rfl | rfl | rfl | rfl | rfl | rfl | rfl | rfl | rfl | rfl
  · exact absurd hin ((strstr_eq_none_iff t _).1 h1)
  · exact absurd hin ((strstr_eq_none_iff t _).1 h2)
  · exact absurd hin ((strstr_eq_none_iff t _).1 h3)
  · exact absurd hin ((strstr_eq_none_iff t _).1 h4)
  · exact absurd hin ((strstr_eq_none_iff t _).1 h5)
  · exact absurd hin ((strstr_eq_none_iff t _).1 h6)
  · exact absurd hin ((strstr_eq_none_iff t _).1 h7)
  · exact absurd hin ((strstr_eq_none_iff t _).1 h8)
  · exact absurd hin ((strstr_eq_none_iff t _).1 h9)
  · exact absurd hin ((strstr_eq_none_iff t _).1 h10)
  · exact absurd hin ((strstr_eq_none_iff t _).1 h11)
  · exact absurd hin ((strstr_eq_none_iff t _).1 h12)
  · exact absurd hin ((strstr_eq_none_iff t _).1 h13)

/-- The restriction of the amended C9 is necessary: when the path contains a
keyword tested before `dump`, a scan of `--dump=p` that returns has not
enabled file-dump mode. -/
theorem dump_directive_only_if (lib : CLib) (prog p : CStr) (g : Globals)
    (hex : ∃ k ∈ keywordsBeforeDump, k <:+: p)
    (h : scanargs lib [prog, "--dump=".toList ++ p] defaultGlobals = .ok g) :
    g.dumpdir = none := by
  have hex2 : ∃ k ∈ keywordsBeforeDump, k <:+: "--dump=".toList ++ p := by
    obtain ⟨k, hk, hin⟩ := hex
    exact ⟨k, hk, hin.trans (List.suffix_append _ _).isInfix⟩
  rcases hs : scanArg lib defaultGlobals ("--dump=".toList ++ p) with e | g1
  · have hl : scanLoop lib ([prog, "--dump=".toList ++ p].drop 1) defaultGlobals = .error e :=
      scanLoop_cons_error lib _ [] defaultGlobals e hs
    have : scanargs lib [prog, "--dump=".toList ++ p] defaultGlobals = .error e := by
      show (scanLoop lib ([prog, "--dump=".toList ++ p].drop 1) defaultGlobals >>= sanityCheck) = _
      rw [hl]
      rfl
    rw [this] at h
    cases h
  · have hd : g1.dumpdir = none := scanArg_keeps_dumpdir lib defaultGlobals g1 _ hex2 hs
    have hl : scanLoop lib ([prog, "--dump=".toList ++ p].drop 1) defaultGlobals =
        if g1.npipe ≥ MAXPIPE then .error .tooManyOperations else .ok g1 :=
      scanLoop_cons lib _ [] defaultGlobals g1 hs
    by_cases hc : g1.npipe ≥ MAXPIPE
    · rw [if_pos hc] at hl
      have : scanargs lib [prog, "--dump=".toList ++ p] defaultGlobals
          = .error .tooManyOperations := by
        show (scanLoop lib ([prog, "--dump=".toList ++ p].drop 1) defaultGlobals
          >>= sanityCheck) = _
        rw [hl]
        rfl
      rw [this] at h
      cases h
    · rw [if_neg hc] at hl
      rw [scanargs_eq lib _ defaultGlobals g1 hl] at h
      rcases sanityCheck_ok_or_error g1 with hok | ⟨e, he⟩
      · rw [hok] at h
        injection h with h
        subst h
        exact hd
      · rw [he] at h
        cases h


/-! ## Properties of the image operations -/

theorem Flt.one_ne_zero_flt : (1 : Flt) ≠ 0 := by
  intro h
  have h2 : (1 : ℚ) = 0 := Flt.fin.inj h
  exact absurd h2 (by norm_num)

theorem Flt.one_sub_one : (1 : Flt) - 1 = 0 := by
  rw [Flt.one_eq, Flt.fin_sub_fin, Flt.zero_eq]
  norm_num

theorem Flt.one_sub_zero : (1 : Flt) - 0 = 1 := by
  rw [Flt.one_eq, Flt.zero_eq, Flt.fin_sub_fin]
  norm_num

theorem Flt.zero_mul_pinf : (0 : Flt) * Flt.pinf = Flt.nan := by
  show Flt.scaleInf 0 = Flt.nan
  simp [Flt.scaleInf]

theorem blend_elt (param : Param) (P x : Image) (i j k : Nat) :
    (blend param P x).elt i j k = param.blend * x.elt i j k + (1 - param.blend) * P.elt i j k :=
  rfl

/-- C4, counterexample: a feedback image `P` with an infinite element.  With
the blend coefficient 1 the element of the result is `1*x + 0*inf`, which is
NaN and not the element 1/4 of `x`; with the coefficient 0 and an infinite
element in `x` the result is `0*inf + 1*P`, NaN again, and not `P`. -/
theorem blend_boundary_counterexample :
    (blend { defaultParam with blend := 1 } (Image.constant Flt.pinf 1 1 1)
        (Image.constant (Flt.fin (1 / 4)) 1 1 1)).elt 0 0 0 = Flt.nan ∧
    blend { defaultParam with blend := 1 } (Image.constant Flt.pinf 1 1 1)
        (Image.constant (Flt.fin (1 / 4)) 1 1 1) ≠ Image.constant (Flt.fin (1 / 4)) 1 1 1 ∧
    (blend { defaultParam with blend := 0 } (Image.constant (Flt.fin (1 / 4)) 1 1 1)
        (Image.constant Flt.pinf 1 1 1)).elt 0 0 0 = Flt.nan ∧
    blend { defaultParam with blend := 0 } (Image.constant (Flt.fin (1 / 4)) 1 1 1)
        (Image.constant Flt.pinf 1 1 1) ≠ Image.constant (Flt.fin (1 / 4)) 1 1 1 := by
  have h1 : (blend { defaultParam with blend := 1 } (Image.constant Flt.pinf 1 1 1)
      (Image.constant (Flt.fin (1 / 4)) 1 1 1)).elt 0 0 0 = Flt.nan := by
    show (1 : Flt) * Flt.fin (1 / 4) + (1 - 1) * Flt.pinf = Flt.nan
    rw [Flt.one_sub_one, Flt.zero_mul_pinf, Flt.one_mul_eq]
    rfl
  have h2 : (blend { defaultParam with blend := 0 } (Image.constant (Flt.fin (1 / 4)) 1 1 1)
      (Image.constant Flt.pinf 1 1 1)).elt 0 0 0 = Flt.nan := by
    show (0 : Flt) * Flt.pinf + (1 - 0) * Flt.fin (1 / 4) = Flt.nan
    rw [Flt.zero_mul_pinf]
    rfl
  refine ⟨h1, ?_, h2, ?_⟩
  · intro h
    have h3 := congrArg (fun a : Image => a.elt 0 0 0) h
    simp only [h1] at h3
    exact absurd h3 (by simp [Image.constant])
  · intro h
    have h3 := congrArg (fun a : Image => a.elt 0 0 0) h
    simp only [h2] at h3
    exact absurd h3 (by simp [Image.constant])

/-- C4, amended: the boundary values of the blend coefficient on finite
images.  For every input `x` and every pre-tick feedback image `P` of the
same shape, `blend` with coefficient 1 returns `x` when every element of `P`
is finite, and `blend` with coefficient 0 returns `P` when every element of
`x` is finite. -/
theorem blend_boundary (param : Param) (P x : Image)
    (hrows : x.rows = P.rows) (hcols : x.cols = P.cols) (hdepth : x.depth = P.depth) :
    (param.blend = 1 → (∀ i j k, (P.elt i j k).isFinite) → blend param P x = x) ∧
    (param.blend = 0 → (∀ i j k, (x.elt i j k).isFinite) → blend param P x = P) := by
  constructor
  · intro h hP
    ext i j k
    · rfl
    · rfl
    · rfl
    · rw [blend_elt, h, Flt.one_sub_one, Flt.zero_mul_finite (hP i j k), Flt.one_mul_eq,
        Flt.add_zero_eq]
  · intro h hx
    ext i j k
    · exact hrows
    · exact hcols
    · exact hdepth
    · rw [blend_elt, h, Flt.one_sub_zero, Flt.zero_mul_finite (hx i j k), Flt.one_mul_eq,
        Flt.zero_add_eq]

/-- Witness for the amended C4: a 2 x 2 colour input and a feedback image of
that shape, both finite. -/
theorem blend_boundary_witness :
    blend { defaultParam with blend := 1 } (Image.constant (Flt.fin (1 / 4)) 2 2 3)
        (Image.constant (Flt.fin (3 / 4)) 2 2 3) = Image.constant (Flt.fin (3 / 4)) 2 2 3 ∧
    blend { defaultParam with blend := 0 } (Image.constant (Flt.fin (1 / 4)) 2 2 3)
        (Image.constant (Flt.fin (3 / 4)) 2 2 3) = Image.constant (Flt.fin (1 / 4)) 2 2 3 :=
  ⟨(blend_boundary { defaultParam with blend := 1 } (Image.constant (Flt.fin (1 / 4)) 2 2 3)
      (Image.constant (Flt.fin (3 / 4)) 2 2 3) rfl rfl rfl).1 rfl (fun _ _ _ => trivial),
   (blend_boundary { defaultParam with blend := 0 } (Image.constant (Flt.fin (1 / 4)) 2 2 3)
      (Image.constant (Flt.fin (3 / 4)) 2 2 3) rfl rfl rfl).2 rfl (fun _ _ _ => trivial)⟩

theorem clip_elt (x : Image) (i j k : Nat) :
    (clip x).elt i j k = if x.elt i j k < 1 then x.elt i j k else 1 := by
  show (if (if x.elt i j k < 1 then (1 : Flt) else 0) ≠ 0 then x.elt i j k else 1) = _
  by_cases h : x.elt i j k < 1
  · rw [if_pos h, if_pos h, if_pos Flt.one_ne_zero_flt]
  · rw [if_neg h, if_neg h, if_neg (fun hne => hne rfl)]

theorem toInt_of_nonneg (q : ℚ) (h : 0 ≤ q) : toInt (Flt.fin q) = ⌊q⌋ := by
  show (if 0 ≤ q then ⌊q⌋ else ⌈q⌉) = ⌊q⌋
  rw [if_pos h]

theorem shave_fin (param : Param) (dim : Int) (z : ℚ) (hz : param.zoom = Flt.fin z) :
    shave param dim = toInt (Flt.fin (1 / 2 + 1 / 2 * (dim : ℚ) * (z - 1))) := by
  unfold shave
  rw [hz, Flt.one_eq, Flt.fin_sub_fin, Flt.half, Flt.fin_mul_fin, Flt.fin_mul_fin,
    Flt.fin_add_fin]

theorem shave_zoom_one (param : Param) (dim : Int) (hz : param.zoom = 1) :
    shave param dim = 0 := by
  rw [shave_fin param dim 1 hz, toInt_of_nonneg _ (by norm_num), Int.floor_eq_iff]
  norm_num
/-- C6: zoom by the factor 1.  For every image with at least one row and one
column nothing is shaved, the kept index ranges are the full ranges
0..rows-1 and 0..cols-1, the cropped region is the whole input, and, resizing
to the same size being the identity, `zoom` returns its input unchanged. -/
theorem zoom_identity (eng : Engine) (param : Param) (x : Image)
    (hz : param.zoom = 1) (hr : 1 ≤ x.rows) (hc : 1 ≤ x.cols)
    (hres : ∀ a : Image, eng.resize a a.rows a.cols = a) :
    shave param x.rows = 0 ∧ shave param x.cols = 0 ∧
    keep param x.rows = { lo := 0, hi := (x.rows : Int) - 1 } ∧
    keep param x.cols = { lo := 0, hi := (x.cols : Int) - 1 } ∧
    (keep param x.rows).lo ≤ (keep param x.rows).hi ∧
    (keep param x.cols).lo ≤ (keep param x.cols).hi ∧
    x.crop (keep param x.rows) (keep param x.cols) = x ∧
    zoom eng param x = x := by
  have sr := shave_zoom_one param x.rows hz
  have sc := shave_zoom_one param x.cols hz
  have kr : keep param x.rows = { lo := 0, hi := (x.rows : Int) - 1 } := by
    unfold keep
    rw [sr]
    simp
  have kc : keep param x.cols = { lo := 0, hi := (x.cols : Int) - 1 } := by
    unfold keep
    rw [sc]
    simp
  have hcrop : x.crop (keep param x.rows) (keep param x.cols) = x := by
    rw [kr, kc]
    ext i j k
    · simp [Image.crop, Image.Seq.size]
    · simp [Image.crop, Image.Seq.size]
    · rfl
    · simp [Image.crop]
  refine ⟨sr, sc, kr, kc, ?_, ?_, hcrop, ?_⟩
  · rw [kr]
    show (0 : Int) ≤ (x.rows : Int) - 1
    omega
  · rw [kc]
    show (0 : Int) ≤ (x.cols : Int) - 1
    omega
  · unfold zoom
    simp only []
    rw [hcrop]
    exact hres x

/-- Witness for C6: the plain engine, whose resize only sets the shape, and a
2 x 2 colour image. -/
theorem zoom_identity_witness :
    zoom plainEngine defaultParam (Image.constant (Flt.fin (1 / 4)) 2 2 3)
      = Image.constant (Flt.fin (1 / 4)) 2 2 3 ∧
    shave defaultParam 2 = 0 :=
  have T := zoom_identity plainEngine defaultParam (Image.constant (Flt.fin (1 / 4)) 2 2 3) rfl
    (by decide) (by decide) (fun a => by
      show ({ a with rows := ((a.rows : Int)).toNat, cols := ((a.cols : Int)).toNat } : Image) = a
      simp)
  ⟨T.2.2.2.2.2.2.2, T.1⟩

theorem shave_two_1080 : shave { defaultParam with zoom := 2 } 1080 = 540 := by
  rw [shave_fin _ 1080 2 rfl, toInt_of_nonneg _ (by norm_num), Int.floor_eq_iff]
  norm_num

theorem atofDec_20 : atofDec "2.0".toList = Flt.fin 2 := by
  have h : atofDec "2.0".toList = Flt.fin (((20 : ℕ) : ℚ) / (10 : ℚ) ^ 1) := rfl
  rw [h]
  congr 1
  norm_num

theorem sanityCheck_zoom_two (pipeline : List Stage) :
    sanityCheck { defaultGlobals with
        param := { defaultParam with zoom := 2 }, pipeline := pipeline } =
      .ok { defaultGlobals with
        param := { defaultParam with zoom := 2 }, pipeline := pipeline } := by
  rw [sanityCheck_ok_iff]
  simp only [defaultGlobals, startGlobals, defaultParam, Flt.half, Flt.zero_eq, Flt.one_eq,
    Flt.two_eq, Flt.fin_lt_fin, GT.gt]
  refine ⟨⟨by decide, by decide⟩, ?_, ?_, ?_, ?_, ?_⟩ <;> norm_num

/-- C10, the failing input: the command line `--zoom=2.0` is accepted by
`scanargs`, with the zoom factor 2 and the pipeline of one zoom stage.  On
the default 1080 rows `zoom` then shaves 540 rows from each side, so that the
kept range is `seq(540, 539)`: its lower bound exceeds its upper bound and
it holds no index. -/
theorem zoom_two_crop_invalid :
    scanargs decLib ["fb".toList, "--zoom=2.0".toList] defaultGlobals =
      .ok { defaultGlobals with
        param := { defaultParam with zoom := 2 }, pipeline := [Stage.zoom] } ∧
    shave { defaultParam with zoom := 2 } 1080 = 540 ∧
    keep { defaultParam with zoom := 2 } 1080 = { lo := 540, hi := 539 } ∧
    ¬ (shave { defaultParam with zoom := 2 } 1080 ≤
        1080 - shave { defaultParam with zoom := 2 } 1080 - 1) ∧
    (keep { defaultParam with zoom := 2 } 1080).size = 0 := by
  have hk : keep { defaultParam with zoom := 2 } 1080 = { lo := 540, hi := 539 } := by
    unfold keep
    rw [shave_two_1080]
    rfl
  refine ⟨?_, shave_two_1080, hk, ?_, ?_⟩
  · have hl : scanLoop decLib (["fb".toList, "--zoom=2.0".toList].drop 1) defaultGlobals =
        .ok { defaultGlobals with
          param := { defaultParam with zoom := atofDec "2.0".toList },
          pipeline := [Stage.zoom] } := rfl
    rw [scanargs_eq decLib _ defaultGlobals _ hl, atofDec_20]
    exact sanityCheck_zoom_two [Stage.zoom]
  · rw [shave_two_1080]
    decide
  · rw [hk]
    rfl

/-- The crop bounds of `zoom` are valid whenever the zoom factor is a number in
[1,2] and `dim * (2 - zoom)` is at least 2. -/
theorem shave_bounds (param : Param) (dim : Int) (z : ℚ) (hzoom : param.zoom = Flt.fin z)
    (hz : 1 ≤ z) (hz2 : z ≤ 2) (hd : 2 ≤ (dim : ℚ) * (2 - z)) :
    0 ≤ shave param dim ∧ shave param dim ≤ dim - shave param dim - 1 := by
  have hdim : (0 : ℚ) ≤ dim := by
    by_contra hneg
    push_neg at hneg
    nlinarith
  have hq : (0 : ℚ) ≤ 1 / 2 + 1 / 2 * (dim : ℚ) * (z - 1) := by
    have : 0 ≤ (dim : ℚ) * (z - 1) := mul_nonneg hdim (by linarith)
    linarith
  rw [shave_fin param dim z hzoom, toInt_of_nonneg _ hq]
  have hfl := Int.floor_le (1 / 2 + 1 / 2 * (dim : ℚ) * (z - 1))
  constructor
  · exact Int.floor_nonneg.2 hq
  · have h2 : (2 : ℚ) * (⌊1 / 2 + 1 / 2 * (dim : ℚ) * (z - 1)⌋ : ℚ) ≤ (dim : ℚ) - 1 := by
      linarith
    have h3 : (2 : Int) * ⌊1 / 2 + 1 / 2 * (dim : ℚ) * (z - 1)⌋ ≤ dim - 1 := by
      exact_mod_cast h2
    omega

theorem runFrom_append (eng : Engine) (g : Globals) (P : Image) (pre post : List Stage) :
    ∀ (inp : Image) (rng : Nat),
      runFrom eng g P (pre ++ post) inp rng =
        runFrom eng g P post (runFrom eng g P pre inp rng).1 (runFrom eng g P pre inp rng).2 := by
  induction pre with
  | nil =>
    intro inp rng
    rfl
  | cons f rest ih =>
    intro inp rng
    exact ih _ _

theorem tick_image (eng : Engine) (g : Globals) (s s2 : LoopState)
    (h : tick eng g s = some s2) : s2.image = (commit eng g s).image := by
  unfold tick at h
  simp only [] at h
  cases ho : output g (commit eng g s) with
  | none =>
    rw [ho] at h
    cases h
  | some o =>
    rw [ho] at h
    injection h with h
    subst h
    rfl

theorem tick_isSome (eng : Engine) (g : Globals) (s : LoopState) :
    (tick eng g s).isSome = (output g (commit eng g s)).isSome := by
  unfold tick
  simp only []
  cases output g (commit eng g s) <;> rfl

/-- C3: what a blend stage mixes.  In one tick over a pipeline with a blend
stage at any position, with the stages `pre` before it and `post` behind it,
the image that `image = run(image)` commits, and that the tick leaves in the
state, is `post` applied to the blend output, and the blend output is
elementwise `blend*in + (1-blend)*P`, where `in` is the output of the stages
before the blend stage and `P` is the feedback image as it was when the tick
started.  For the pipeline `[s1, blend, s2]` the tick commits
`s2(blend*s1(P) + (1-blend)*P)`. -/
theorem blend_stage_mixes_pretick_image (eng : Engine) (g : Globals) (s : LoopState)
    (pre post : List Stage) (hpipe : g.pipeline = pre ++ Stage.blend :: post) :
    (commit eng g s).image =
      (runFrom eng g s.image post
        (blend g.param s.image (runFrom eng g s.image pre s.image s.rng).1)
        (runFrom eng g s.image pre s.image s.rng).2).1 ∧
    (∀ s2 : LoopState, tick eng g s = some s2 →
      s2.image =
        (runFrom eng g s.image post
          (blend g.param s.image (runFrom eng g s.image pre s.image s.rng).1)
          (runFrom eng g s.image pre s.image s.rng).2).1) ∧
    (tick eng g s).isSome = (output g (commit eng g s)).isSome ∧
    (g.dumpdir = none → (tick eng g s).isSome = true) ∧
    (∀ (inp : Image) (rng : Nat),
      applyStage eng g s.image Stage.blend inp rng = (blend g.param s.image inp, rng)) ∧
    (∀ (inp : Image) (i j k : Nat),
      (blend g.param s.image inp).elt i j k =
        g.param.blend * inp.elt i j k + (1 - g.param.blend) * s.image.elt i j k) ∧
    (∀ s1 s2 : Stage, pre = [s1] → post = [s2] →
      (commit eng g s).image =
        (applyStage eng g s.image s2
          (blend g.param s.image (applyStage eng g s.image s1 s.image s.rng).1)
          (applyStage eng g s.image s1 s.image s.rng).2).1) := by
  have h1 : (commit eng g s).image =
      (runFrom eng g s.image post
        (blend g.param s.image (runFrom eng g s.image pre s.image s.rng).1)
        (runFrom eng g s.image pre s.image s.rng).2).1 := by
    show (runFrom eng g s.image g.pipeline s.image s.rng).1 = _
    rw [hpipe, runFrom_append]
    rfl
  refine ⟨h1, fun s2 h => (tick_image eng g s s2 h).trans h1, tick_isSome eng g s, ?_,
    fun _ _ => rfl, fun _ _ _ _ => rfl, ?_⟩
  · intro hd
    rw [tick_isSome]
    unfold output
    rw [hd]
    rfl
  · intro s1 s2 hpre hpost
    rw [h1, hpre, hpost]
    rfl

/-- Witness for C3: the pipeline invert, blend, invert on greyscale images with
blend coefficient 1/4; the feedback image has the value 1/5 everywhere and
the tick commits 1 - (1/4 * (1 - 1/5) + 3/4 * 1/5) = 13/20. -/
theorem blend_stage_mixes_pretick_image_witness :
    (commit plainEngine
      { defaultGlobals with
          param := { defaultParam with blend := Flt.fin (1 / 4), depth := 1 },
          pipeline := [Stage.invert, Stage.blend, Stage.invert] }
      { image := Image.constant (Flt.fin (1 / 5)) 2 2 1, rng := 0, frame := 0,
        out := [] }).image.elt 1 1 0
      = Flt.fin (13 / 20) ∧
    (tick plainEngine
      { defaultGlobals with
          param := { defaultParam with blend := Flt.fin (1 / 4), depth := 1 },
          pipeline := [Stage.invert, Stage.blend, Stage.invert] }
      { image := Image.constant (Flt.fin (1 / 5)) 2 2 1, rng := 0, frame := 0,
        out := [] }).isSome = true := by
  have T := blend_stage_mixes_pretick_image plainEngine
      { defaultGlobals with
          param := { defaultParam with blend := Flt.fin (1 / 4), depth := 1 },
          pipeline := [Stage.invert, Stage.blend, Stage.invert] }
      { image := Image.constant (Flt.fin (1 / 5)) 2 2 1, rng := 0, frame := 0, out := [] }
      [Stage.invert] [Stage.invert] rfl
  refine ⟨?_, T.2.2.2.1 rfl⟩
  rw [T.2.2.2.2.2.2 Stage.invert Stage.invert rfl rfl]
  show (1 : Flt) - (Flt.fin (1 / 4) * (1 - Flt.fin (1 / 5))
    + (1 - Flt.fin (1 / 4)) * Flt.fin (1 / 5)) = Flt.fin (13 / 20)
  rw [Flt.one_eq, Flt.fin_sub_fin, Flt.fin_sub_fin, Flt.fin_mul_fin, Flt.fin_mul_fin,
    Flt.fin_add_fin, Flt.fin_sub_fin]
  congr 1
  norm_num

theorem runFrom_eq_foldl (eng : Engine) (g : Globals) (P : Image) (l : List Stage) :
    ∀ (inp : Image) (rng : Nat),
      runFrom eng g P l inp rng =
        l.foldl (fun p f => applyStage eng g P f p.1 p.2) (inp, rng) := by
  induction l with
  | nil =>
    intro inp rng
    rfl
  | cons f rest ih =>
    intro inp rng
    exact ih _ _

theorem tick_eq_dumpPass (eng : Engine) (g : Globals) (dir : CStr) (s : LoopState)
    (hdir : g.dumpdir = some dir) (hfit : (frameName dir s.frame).length + 1 ≤ 80) :
    tick eng g s = some (dumpPass eng g dir s) := by
  have ho : output g (commit eng g s) =
      some (Output.saved (frameName dir s.frame) (clip (commit eng g s).image)) := by
    unfold output
    rw [hdir]
    show (match sprintfFrame dir s.frame with
      | some buf => some (Output.saved buf (clip (commit eng g s).image))
      | none => none) = _
    unfold sprintfFrame
    rw [if_pos hfit]
  unfold tick
  simp only [ho]
  rfl

theorem tick_eq_none (eng : Engine) (g : Globals) (dir : CStr) (s : LoopState)
    (hdir : g.dumpdir = some dir) (hover : ¬ (frameName dir s.frame).length + 1 ≤ 80) :
    tick eng g s = none := by
  have ho : output g (commit eng g s) = none := by
    unfold output
    rw [hdir]
    show (match sprintfFrame dir s.frame with
      | some buf => some (Output.saved buf (clip (commit eng g s).image))
      | none => none) = _
    unfold sprintfFrame
    rw [if_neg hover]
  unfold tick
  simp only [ho]

theorem dumpPass_frame (eng : Engine) (g : Globals) (dir : CStr) (s : LoopState) :
    (dumpPass eng g dir s).frame = s.frame + 1 := rfl

theorem iterate_dumpPass_frame (eng : Engine) (g : Globals) (dir : CStr) (s : LoopState)
    (k : Nat) : ((dumpPass eng g dir)^[k] s).frame = s.frame + k := by
  induction k with
  | zero => simp
  | succ k ih =>
    rw [Function.iterate_succ_apply', dumpPass_frame, ih]
    push_cast
    ring

theorem loopCond_dump (g : Globals) (closes : Int → Bool) (s : LoopState) (dir : CStr)
    (hdir : g.dumpdir = some dir) : loopCond g closes s = decide (s.frame < g.nframes) := by
  unfold loopCond
  rw [hdir]

theorem mainLoop_dump (eng : Engine) (g : Globals) (closes : Int → Bool) (dir : CStr)
    (hdir : g.dumpdir = some dir) :
    ∀ (m fuel : Nat) (s : LoopState), (g.nframes - s.frame).toNat = m → m ≤ fuel →
      (∀ i : Nat, i < m → (frameName dir (s.frame + i)).length + 1 ≤ 80) →
      mainLoop eng g closes fuel s = .stopped ((dumpPass eng g dir)^[m] s) := by
  intro m
  induction m with
  | zero =>
    intro fuel s hm _ _
    have hc : loopCond g closes s = false := by
      rw [loopCond_dump g closes s dir hdir]
      simp only [decide_eq_false_iff_not, not_lt]
      omega
    cases fuel with
    | zero => simp [mainLoop, hc]
    | succ fuel => simp [mainLoop, hc]
  | succ m ih =>
    intro fuel s hm hfuel hfit
    have hc : loopCond g closes s = true := by
      rw [loopCond_dump g closes s dir hdir]
      simp only [decide_eq_true_eq]
      omega
    cases fuel with
    | zero => omega
    | succ fuel =>
      have ht : tick eng g s = some (dumpPass eng g dir s) :=
        tick_eq_dumpPass eng g dir s hdir (by simpa using hfit 0 (by omega))
      have hstep : mainLoop eng g closes (fuel + 1) s =
          mainLoop eng g closes fuel (dumpPass eng g dir s) := by
        simp [mainLoop, hc, ht]
      rw [hstep, ih fuel (dumpPass eng g dir s) (by rw [dumpPass_frame]; omega) (by omega)
        (fun i hi => by
          have := hfit (i + 1) (by omega)
          rw [dumpPass_frame]
          have e : s.frame + 1 + (i : Int) = s.frame + ((i + 1 : Nat) : Int) := by
            push_cast
            ring
          rw [e]
          exact this),
        Function.iterate_succ_apply]

theorem dumpPass_out (eng : Engine) (g : Globals) (dir : CStr) (s : LoopState) :
    (dumpPass eng g dir s).out =
      s.out ++ [Output.saved (frameName dir s.frame) (clip (dumpPass eng g dir s).image)] :=
  rfl

theorem iterate_dumpPass_out (eng : Engine) (g : Globals) (dir : CStr) (s : LoopState)
    (k : Nat) :
    ((dumpPass eng g dir)^[k] s).out = s.out ++ (List.range k).map (fun (i : Nat) =>
      Output.saved (frameName dir (s.frame + (i : Int)))
        (clip ((dumpPass eng g dir)^[i + 1] s).image)) := by
  induction k with
  | zero => simp
  | succ k ih =>
    rw [Function.iterate_succ_apply', dumpPass_out, ih, List.range_succ,
      List.map_append, List.append_assoc, iterate_dumpPass_frame,
      ← Function.iterate_succ_apply' (dumpPass eng g dir) k s]
    rfl

theorem iterate_dumpPass_image (eng : Engine) (g : Globals) (dir : CStr) (s : LoopState)
    (k : Nat) :
    (fun p : Image × Nat => run eng g p.1 p.1 p.2)^[k] (s.image, s.rng) =
      (((dumpPass eng g dir)^[k] s).image, ((dumpPass eng g dir)^[k] s).rng) := by
  induction k with
  | zero => rfl
  | succ k ih =>
    rw [Function.iterate_succ_apply', ih, Function.iterate_succ_apply']
    rfl

theorem fmt05d_length (k : Nat) (hk : k < 100000) : (fmt05d (k : Int)).length = 5 := by
  have hlen : (Nat.toDigits 10 k).length ≤ 5 :=
    Nat.toDigitsCore_length 10 (by decide) (k + 1) k 5 (by norm_num; exact hk) (by decide)
  unfold fmt05d
  rw [if_neg (by omega)]
  simp only [zeroPad, Int.toNat_ofNat, List.length_append, List.length_replicate]
  omega

theorem frameName_length (dir : CStr) (k : Nat) (hk : k < 100000) :
    (frameName dir (k : Int)).length = dir.length + 15 := by
  unfold frameName
  rw [List.length_append, List.length_append, List.length_append, fmt05d_length k hk]
  rfl

/-- The feedback loop in file-dump mode, for file names that fit into `buf`.
With an output directory `dir` and a frame budget `n`, started with frame
counter 0 and nothing written, the main loop stops (any fuel of at least `n`
passes suffices) after exactly `n` ticks.  Tick `k` commits the fold of the
pipeline stages over the image, with the pre-tick image as the one that
blend reads, increments the frame counter and writes exactly one file,
named `dir/frame<k, zero padded to five digits>.png`, whose elements are
those of the committed image below 1 and 1 elsewhere.  The names fit into
`buf` when `dir` has at most 64 characters and `n` is at most 100000. -/
theorem dump_mode_frames (eng : Engine) (g : Globals) (closes : Int → Bool)
    (dir : CStr) (n : Nat) (s0 : LoopState) (fuel : Nat)
    (hdir : g.dumpdir = some dir) (hn : g.nframes = n)
    (hframe : s0.frame = 0) (hout : s0.out = []) (hfuel : n ≤ fuel)
    (hfit : ∀ k : Nat, k < n → (frameName dir (k : Int)).length + 1 ≤ 80) :
    mainLoop eng g closes fuel s0 = .stopped ((dumpPass eng g dir)^[n] s0) ∧
    (∀ k : Nat, k < n → loopCond g closes ((dumpPass eng g dir)^[k] s0) = true ∧
      tick eng g ((dumpPass eng g dir)^[k] s0) = some ((dumpPass eng g dir)^[k + 1] s0)) ∧
    loopCond g closes ((dumpPass eng g dir)^[n] s0) = false ∧
    ((dumpPass eng g dir)^[n] s0).frame = n ∧
    ((dumpPass eng g dir)^[n] s0).out = (List.range n).map (fun (k : Nat) =>
      Output.saved (frameName dir (k : Int)) (clip ((dumpPass eng g dir)^[k + 1] s0).image)) ∧
    (∀ k : Nat,
      ((dumpPass eng g dir)^[k + 1] s0).image =
        (g.pipeline.foldl
          (fun p f => applyStage eng g ((dumpPass eng g dir)^[k] s0).image f p.1 p.2)
          (((dumpPass eng g dir)^[k] s0).image, ((dumpPass eng g dir)^[k] s0).rng)).1 ∧
      ((dumpPass eng g dir)^[k + 1] s0).frame = ((dumpPass eng g dir)^[k] s0).frame + 1) ∧
    (∀ (x : Image) (i j k : Nat),
      (clip x).elt i j k = if x.elt i j k < 1 then x.elt i j k else 1) ∧
    (((dumpPass eng g dir)^[n] s0).image, ((dumpPass eng g dir)^[n] s0).rng) =
      (fun p : Image × Nat => run eng g p.1 p.1 p.2)^[n] (s0.image, s0.rng) ∧
    (∀ k : Nat, k < 100000 →
      (fmt05d (k : Int)).length = 5 ∧ (frameName dir (k : Int)).length = dir.length + 15) ∧
    (List.range 5).map (fun (k : Nat) => frameName "/tmp/out".toList (k : Int)) =
      ["/tmp/out/frame00000.png".toList, "/tmp/out/frame00001.png".toList,
       "/tmp/out/frame00002.png".toList, "/tmp/out/frame00003.png".toList,
       "/tmp/out/frame00004.png".toList] := by
  have hfit2 : ∀ i : Nat, i < n → (frameName dir (s0.frame + i)).length + 1 ≤ 80 := by
    intro i hi
    rw [hframe, zero_add]
    exact hfit i hi
  have hloop : mainLoop eng g closes fuel s0 = .stopped ((dumpPass eng g dir)^[n] s0) :=
    mainLoop_dump eng g closes dir hdir n fuel s0 (by rw [hn, hframe]; simp) hfuel hfit2
  refine ⟨hloop, ?_, ?_, ?_, ?_, ?_, clip_elt, ?_,
    fun k hk => ⟨fmt05d_length k hk, frameName_length dir k hk⟩, ?_⟩
  · intro k hk
    constructor
    · rw [loopCond_dump g closes _ dir hdir, iterate_dumpPass_frame, hframe, hn]
      simp only [decide_eq_true_eq]
      omega
    · rw [Function.iterate_succ_apply']
      apply tick_eq_dumpPass eng g dir _ hdir
      rw [iterate_dumpPass_frame, hframe, zero_add]
      exact hfit k hk
  · rw [loopCond_dump g closes _ dir hdir, iterate_dumpPass_frame, hframe, hn]
    simp
  · rw [iterate_dumpPass_frame, hframe]
    simp
  · rw [iterate_dumpPass_out eng g dir s0 n, hout, hframe]
    simp
  · intro k
    rw [Function.iterate_succ_apply']
    refine ⟨?_, rfl⟩
    show (runFrom eng g _ g.pipeline _ _).1 = _
    rw [runFrom_eq_foldl]
  · exact (iterate_dumpPass_image eng g dir s0 n).symm
  · decide

theorem mainLoop_overrun (eng : Engine) (g : Globals) (closes : Int → Bool) (fuel : Nat)
    (s : LoopState) (hc : loopCond g closes s = true) (ht : tick eng g s = none) :
    mainLoop eng g closes (fuel + 1) s = .overrun s := by
  show (if loopCond g closes s then
      match tick eng g s with
      | some s2 => mainLoop eng g closes fuel s2
      | none => LoopResult.overrun s
    else LoopResult.stopped s) = _
  rw [if_pos hc, ht]

/-- C7, the failing input: a dump directory of 65 characters.  `scanargs`
accepts the command line, and in the first pass of the main loop the file
name has 80 characters, which with the terminating NUL is one more than
`buf` holds: `sprintf` writes behind the end of the array, and the run ends
in undefined behaviour in the first tick, before any file is written. -/
theorem long_dump_dir_overruns_buf :
    longDir.length = 65 ∧
    scanargs decLib ["fb".toList, "--dump=".toList ++ longDir, "--nframes=1".toList]
        defaultGlobals =
      .ok { defaultGlobals with dumpdir := some longDir, nframes := 1 } ∧
    (frameName longDir 0).length = 80 ∧
    sprintfFrame longDir 0 = none ∧
    (initialState plainEngine
      { defaultGlobals with
          param := { defaultParam with seed := 7 },
          dumpdir := some longDir, nframes := 1 }).out = [] ∧
    main decLib plainEngine
        ["fb".toList, "--dump=".toList ++ longDir, "--nframes=1".toList] (some 7)
        (fun _ => false) 1 =
      .ok (.overrun (initialState plainEngine
        { defaultGlobals with
            param := { defaultParam with seed := 7 },
            dumpdir := some longDir, nframes := 1 })) := by
  have hl : scanLoop decLib
      (["fb".toList, "--dump=".toList ++ longDir, "--nframes=1".toList].drop 1) defaultGlobals =
      .ok { defaultGlobals with dumpdir := some longDir, nframes := 1 } := rfl
  have hs : scanargs decLib ["fb".toList, "--dump=".toList ++ longDir, "--nframes=1".toList]
      defaultGlobals = .ok { defaultGlobals with dumpdir := some longDir, nframes := 1 } := by
    rw [scanargs_eq decLib _ defaultGlobals _ hl, sanityCheck_ok_iff]
    simp only [defaultGlobals, startGlobals, defaultParam, Flt.half, Flt.zero_eq, Flt.one_eq,
      Flt.two_eq, Flt.fin_lt_fin, GT.gt]
    refine ⟨⟨by decide, by decide⟩, ?_, ?_, ?_, ?_, ?_⟩ <;> norm_num
  refine ⟨by decide, hs, by decide, by decide, rfl, ?_⟩
  rw [main_eq decLib plainEngine _ (some 7) _ 1 _
    { defaultGlobals with
        param := { defaultParam with seed := 7 }, dumpdir := some longDir, nframes := 1 }
    hs rfl]
  have ht : tick plainEngine
      { defaultGlobals with
        param := { defaultParam with seed := 7 }, dumpdir := some longDir, nframes := 1 }
      (initialState plainEngine
        { defaultGlobals with
          param := { defaultParam with seed := 7 }, dumpdir := some longDir, nframes := 1 })
      = none :=
    tick_eq_none plainEngine _ longDir _ rfl (by decide)
  exact congrArg Except.ok (mainLoop_overrun plainEngine _ (fun _ => false) 0 _ rfl ht)

theorem sample_commit_elt (s : LoopState) (i j k : Nat) :
    (commit plainEngine sampleDump s).image.elt i j k =
      Flt.fin (1 / 4) * (1 - s.image.elt i j k) + (1 - Flt.fin (1 / 4)) * s.image.elt i j k :=
  rfl

theorem sample_step (q : ℚ) :
    Flt.fin (1 / 4) * (1 - Flt.fin q) + (1 - Flt.fin (1 / 4)) * Flt.fin q
      = Flt.fin (1 / 4 + q / 2) := by
  rw [Flt.one_eq, Flt.fin_sub_fin, Flt.fin_sub_fin, Flt.fin_mul_fin, Flt.fin_mul_fin,
    Flt.fin_add_fin]
  congr 1
  ring

theorem sample_pass_elt (s : LoopState) (q : ℚ) (h : s.image.elt 0 0 0 = Flt.fin q) :
    (dumpPass plainEngine sampleDump "/tmp/out".toList s).image.elt 0 0 0
      = Flt.fin (1 / 4 + q / 2) := by
  show (commit plainEngine sampleDump s).image.elt 0 0 0 = _
  rw [sample_commit_elt, h, sample_step]

/-- A sample run of the feedback loop in file-dump mode: five frames of the
pipeline invert, blend (coefficient 1/4) on greyscale images, from an image
of the value 3.  The committed values are 7/4, 9/8, 13/16, 21/32 and 37/64;
the five files carry the names `frame00000.png` to `frame00004.png` and the
clipped values 1, 1, 13/16, 21/32 and 37/64. -/
theorem sample_dump_run :
    mainLoop plainEngine sampleDump (fun _ => false) 5 sampleStart =
      .stopped ((dumpPass plainEngine sampleDump "/tmp/out".toList)^[5] sampleStart) ∧
    ((dumpPass plainEngine sampleDump "/tmp/out".toList)^[5] sampleStart).frame = 5 ∧
    ((dumpPass plainEngine sampleDump "/tmp/out".toList)^[5] sampleStart).image.elt 0 0 0
      = Flt.fin (37 / 64) ∧
    (((dumpPass plainEngine sampleDump "/tmp/out".toList)^[5] sampleStart).out.map
        Output.name) =
      [some "/tmp/out/frame00000.png".toList, some "/tmp/out/frame00001.png".toList,
       some "/tmp/out/frame00002.png".toList, some "/tmp/out/frame00003.png".toList,
       some "/tmp/out/frame00004.png".toList] ∧
    (((dumpPass plainEngine sampleDump "/tmp/out".toList)^[5] sampleStart).out.map
        (fun o => o.img.elt 0 0 0)) =
      [Flt.fin 1, Flt.fin 1, Flt.fin (13 / 16), Flt.fin (21 / 32), Flt.fin (37 / 64)] := by
  have T := dump_mode_frames plainEngine sampleDump (fun _ => false)
    "/tmp/out".toList 5 sampleStart 5 rfl rfl rfl rfl (le_refl 5) (by decide)
  have e1 : ((dumpPass plainEngine sampleDump "/tmp/out".toList)^[1] sampleStart).image.elt 0 0 0
      = Flt.fin (7 / 4) := by
    rw [Function.iterate_succ_apply', sample_pass_elt _ 3 rfl]
    congr 1
    norm_num
  have e2 : ((dumpPass plainEngine sampleDump "/tmp/out".toList)^[2] sampleStart).image.elt 0 0 0
      = Flt.fin (9 / 8) := by
    rw [Function.iterate_succ_apply', sample_pass_elt _ _ e1]
    congr 1
    norm_num
  have e3 : ((dumpPass plainEngine sampleDump "/tmp/out".toList)^[3] sampleStart).image.elt 0 0 0
      = Flt.fin (13 / 16) := by
    rw [Function.iterate_succ_apply', sample_pass_elt _ _ e2]
    congr 1
    norm_num
  have e4 : ((dumpPass plainEngine sampleDump "/tmp/out".toList)^[4] sampleStart).image.elt 0 0 0
      = Flt.fin (21 / 32) := by
    rw [Function.iterate_succ_apply', sample_pass_elt _ _ e3]
    congr 1
    norm_num
  have e5 : ((dumpPass plainEngine sampleDump "/tmp/out".toList)^[5] sampleStart).image.elt 0 0 0
      = Flt.fin (37 / 64) := by
    rw [Function.iterate_succ_apply', sample_pass_elt _ _ e4]
    congr 1
    norm_num
  have c : ∀ (x : Image) (q : ℚ), x.elt 0 0 0 = Flt.fin q →
      (clip x).elt 0 0 0 = if q < 1 then Flt.fin q else Flt.fin 1 := by
    intro x q h
    rw [clip_elt, h, Flt.one_eq]
    by_cases hq : q < 1
    · rw [if_pos hq, if_pos ((Flt.fin_lt_fin q 1).2 hq)]
    · rw [if_neg hq, if_neg (fun hlt => hq ((Flt.fin_lt_fin q 1).1 hlt))]
  refine ⟨T.1, T.2.2.2.1, e5, ?_, ?_⟩
  · rw [T.2.2.2.2.1]
    decide
  · rw [T.2.2.2.2.1]
    simp only [List.range_succ, List.range_zero, List.nil_append, List.cons_append,
      List.map_cons, List.map_nil, Output.img, Nat.zero_add, Nat.reduceAdd]
    rw [c _ _ e1, c _ _ e2, c _ _ e3, c _ _ e4, c _ _ e5]
    norm_num

end VideoFeedback
